import Mathlib

/-!
# Verification of the game-platform core

A shallow embedding, in Lean 4, of the rule engines, schedulers, matchmaking pool
and bot move selection of the two-player game platform (rotating-board "pentago"
game and shared-board falling-piece "tetris" game), together with theorems that
settle the specification claims about them.

Conventions used throughout:
* Python `list` values become Lean `List`s; dictionaries with a fixed key set
  become structures.  Indexing `l[i]` becomes `List.getD` (all symbolic theorems
  carry well-formedness hypotheses that keep indices in bounds, matching the
  source, where an out-of-bounds index would raise).
* Python `float` clock values are embedded as `ℚ` (every operation the code
  performs on them — integer initialisation, `±1`, `+increment` — is exact in
  IEEE floats, so `ℚ` is faithful on the reachable values).
* `random.shuffle` / `random.randint` draws are passed in as explicit
  parameters, universally quantified over their admissible range.
* Code that can raise (`TypeError` on a `None` comparison) is embedded in
  `Except PyError`.
-/

set_option maxHeartbeats 1000000

namespace GamePlatform

/-- The runtime errors the embedded code can raise. -/
inductive PyError
  | typeError
  deriving DecidableEq, Repr

/-! ## Rotating-board (pentago) rule engine — `games/pentago/board.py` -/

namespace Pentago

/-- One cell of the 8×8 grid: `None` or a player id mark. -/
abbrev Cell := Option ℕ

/-- The grid: a list of rows (`board_state["grid"]`). -/
abbrev Grid := List (List Cell)

/-- `PentagoBoard.BOARD_SIZE`. -/
def BOARD_SIZE : ℕ := 8

/-- `PentagoBoard.QUADRANT_SIZE`. -/
def QUADRANT_SIZE : ℕ := 4

/-- `grid[r][c]` (callers establish that the indices are in bounds; out of
bounds, the source would raise `IndexError`, the embedding yields `none`). -/
def cellAt (g : Grid) (r c : ℕ) : Cell :=
  (g.getD r []).getD c none

/-- Well-formed pentago grid: 8 rows of 8 cells. -/
def WFGrid (g : Grid) : Prop :=
  g.length = BOARD_SIZE ∧ ∀ row ∈ g, row.length = BOARD_SIZE

instance : DecidablePred WFGrid := fun g => by
  unfold WFGrid; infer_instance

/-- `initialize_board`'s grid: 8×8 of `None`. -/
def emptyGrid : Grid :=
  List.replicate BOARD_SIZE (List.replicate BOARD_SIZE none)

/-- The window test inside `check_line`:
`line[i] is not None and line[i] == line[i+1] == line[i+2] == line[i+3]`,
returning `line[i]` when it holds. -/
def checkWindow (line : List Cell) (i : ℕ) : Option ℕ :=
  match line.getD i none with
  | none => none
  | some v =>
      if line.getD (i+1) none = some v ∧ line.getD (i+2) none = some v ∧
         line.getD (i+3) none = some v then some v else none

/-- `check_line`: first window of four equal non-empty marks, scanning
`i ∈ range(len(line) - 3)`. -/
def checkLine (line : List Cell) : Option ℕ :=
  (List.range (line.length - 3)).findSome? (checkWindow line)

/-- The column `[grid[row][col] for row in range(8)]`. -/
def colList (g : Grid) (c : ℕ) : List Cell :=
  (List.range BOARD_SIZE).map (fun r => cellAt g r c)

/-- The main-diagonal window `[grid[sr+step][sc+step] for step in range(4)]`. -/
def diagList (g : Grid) (sr sc : ℕ) : List Cell :=
  (List.range 4).map (fun i => cellAt g (sr + i) (sc + i))

/-- The anti-diagonal window `[grid[sr+step][sc+3-step] for step in range(4)]`. -/
def antiList (g : Grid) (sr sc : ℕ) : List Cell :=
  (List.range 4).map (fun i => cellAt g (sr + i) (sc + 3 - i))

/-- `PentagoBoard.check_winner`: rows, then columns, then for each
`start_row, start_col ∈ range(size-3)` the main diagonal followed by the
anti-diagonal; first match wins. -/
def check_winner (g : Grid) : Option ℕ :=
  match g.findSome? checkLine with
  | some v => some v
  | none =>
    match (List.range BOARD_SIZE).findSome? (fun c => checkLine (colList g c)) with
    | some v => some v
    | none =>
      (List.range (BOARD_SIZE - 3)).findSome? (fun sr =>
        (List.range (BOARD_SIZE - 3)).findSome? (fun sc =>
          match checkLine (diagList g sr sc) with
          | some v => some v
          | none => checkLine (antiList g sr sc)))

/-- `PentagoBoard.is_draw`: every cell occupied. -/
def is_draw (g : Grid) : Bool :=
  g.all (fun row => row.all (fun cell => cell ≠ none))

/-- Write `grid[r][c] = v` (in-bounds at every call site; `List.set` is the
out-of-place counterpart of the source's in-place write on a fresh copy). -/
def set2d (g : Grid) (r c : ℕ) (v : Cell) : Grid :=
  g.set r ((g.getD r []).set c v)

/-- The index pairs `(r, c)` for `r in range(4) for c in range(4)`. -/
def quadIdx : List (ℕ × ℕ) :=
  (List.range QUADRANT_SIZE).flatMap (fun r => (List.range QUADRANT_SIZE).map (fun c => (r, c)))

/-- `PentagoBoard._rotate_quadrant`: extract the 4×4 quadrant, rotate it
(`rotated[c][3-r] = data[r][c]` clockwise, `rotated[3-c][r] = data[r][c]`
counterclockwise), and write it back. -/
def rotate_quadrant (g : Grid) (quadrant : ℕ) (direction : String) : Grid :=
  let start_row := (quadrant / 2) * QUADRANT_SIZE
  let start_col := (quadrant % 2) * QUADRANT_SIZE
  let data : ℕ → ℕ → Cell := fun r c => cellAt g (start_row + r) (start_col + c)
  let blank : Grid := List.replicate QUADRANT_SIZE (List.replicate QUADRANT_SIZE none)
  let rotated : Grid :=
    if direction = "clockwise" then
      quadIdx.foldl (fun acc rc => set2d acc rc.2 (QUADRANT_SIZE - 1 - rc.1) (data rc.1 rc.2)) blank
    else
      quadIdx.foldl (fun acc rc => set2d acc (QUADRANT_SIZE - 1 - rc.2) rc.1 (data rc.1 rc.2)) blank
  quadIdx.foldl (fun acc rc =>
    set2d acc (start_row + rc.1) (start_col + rc.2) (cellAt rotated rc.1 rc.2)) g

/-- Move payload for the rotating-board game.  Each field is `Option`al because
`move.get(...)` yields `None` when the key is absent. -/
structure PMove where
  x : Option ℤ
  y : Option ℤ
  quadrant : Option ℤ
  direction : Option String
  deriving DecidableEq, Repr

/-- `PentagoBoard.is_valid_move`.  A missing `x`, `y` or `quadrant` flows into a
chained integer comparison, which raises `TypeError` in the source — embedded as
`Except.error`.  A missing `direction` only reaches the `in` test and yields
`False`.  The `and` in `0 <= x < 8 and 0 <= y < 8` short-circuits, so `y` is not
inspected when the `x` test already failed. -/
def is_valid_move (g : Grid) (m : PMove) : Except PyError Bool :=
  match m.x with
  | none => .error .typeError
  | some x =>
    if ¬ (0 ≤ x ∧ x < 8) then
      match m.y with
      | none =>
          -- `0 <= x < 8` was false only when the `x` tests fail; if `0 ≤ x` held
          -- and `x < 8` failed the conjunction short-circuits before `y`;
          -- in every such case the function returns False without touching `y`.
          .ok false
      | some _ => .ok false
    else
      match m.y with
      | none => .error .typeError
      | some y =>
        if ¬ (0 ≤ y ∧ y < 8) then .ok false
        else if cellAt g y.toNat x.toNat ≠ none then .ok false
        else
          match m.quadrant with
          | none => .error .typeError
          | some q =>
            if ¬ (0 ≤ q ∧ q < 4) then .ok false
            else if m.direction ≠ some "clockwise" ∧ m.direction ≠ some "counterclockwise" then
              .ok false
            else .ok true

/-- `PentagoBoard.apply_move` on the grid: place the mark at `(x, y)`, then
rotate the named quadrant.  Field accesses `move["x"]` etc. happen only after
validation, so the defaults of `getD` are dead code. -/
def apply_move (g : Grid) (m : PMove) (player_id : ℕ) : Grid :=
  let x := (m.x.getD 0).toNat
  let y := (m.y.getD 0).toNat
  let q := (m.quadrant.getD 0).toNat
  let g := set2d g y x (some player_id)
  rotate_quadrant g q (m.direction.getD "")

/-- One recorded move (`GameMove` with the replay fields `process_move` sets;
the wall-clock `timestamp` is not modelled). -/
structure PMoveLog where
  player_id : ℕ
  move_data : PMove
  board_state_after : Grid
  time_remaining_after : List ℚ
  deriving DecidableEq, Repr

/-- The session state (`GameState`) as the rotating-board logic and the
`GameEngine` timer use it.  `players` is the list of display names (the only
player field the modelled code reads); `time_remaining` is the clock list
indexed by slot.  `created_at`, `config` and `chat_history` are only ever
copied, never read, and are omitted. -/
structure PGameState where
  status : String
  players : List String
  current_player : ℕ
  board_grid : Grid
  time_remaining : List ℚ
  winner : Option String
  moves_history : List PMoveLog
  increment : ℚ
  first_move_timer : Option ℚ
  first_move_player : Option ℕ
  disconnect_timer : Option ℚ
  disconnected_player : Option ℕ
  deriving DecidableEq, Repr

/-- The `# Handle first move phase` block of `PentagoGame.process_move`,
applied to the post-move state: after the first of the two first moves, arm
the other slot's 30-second sub-timer; after the second, advance to `playing`. -/
def first_move_update (s : PGameState) : PGameState :=
  if s.status = "first_move" then
    let moves_made := s.moves_history.length
    if moves_made = 1 then
      { s with first_move_player := some ((s.current_player + 1) % s.players.length),
               first_move_timer := some 30 }
    else if moves_made = s.players.length then
      { s with status := "playing", first_move_timer := none, first_move_player := none }
    else s
  else s

/-- The `GameState(...)` copy built at the top of `PentagoGame.process_move`:
the constructor call passes every other field through but omits
`first_move_timer`, `first_move_player` and `rated`, so the copy resets them
to the dataclass defaults `None`, `None` and `True` (`rated` is engine-side
bookkeeping and not a field of `PGameState`). -/
def copy_state (s : PGameState) : PGameState :=
  { s with first_move_timer := none, first_move_player := none }

/-- The turn check, validation and move application of
`PentagoGame.process_move`, acting on the already-copied state; every path
returns that state (possibly further modified), never the caller's original.
A `TypeError` raised inside `is_valid_move` propagates. -/
def process_move_on_copy (s : PGameState) (m : PMove) (player_id : ℕ) :
    Except PyError (PGameState × Bool) :=
  if player_id ≠ s.current_player then .ok (s, false)
  else
    match is_valid_move s.board_grid m with
    | .error e => .error e
    | .ok false => .ok (s, false)
    | .ok true =>
      let s := { s with board_grid := apply_move s.board_grid m player_id }
      let s := { s with time_remaining :=
        s.time_remaining.set player_id (s.time_remaining.getD player_id 0 + s.increment) }
      let entry : PMoveLog :=
        { player_id := player_id, move_data := m,
          board_state_after := s.board_grid,
          time_remaining_after := s.time_remaining }
      let s := { s with moves_history := s.moves_history ++ [entry] }
      let s := first_move_update s
      match check_winner s.board_grid with
      | some w => .ok ({ s with winner := some (s.players.getD w ""), status := "finished" }, true)
      | none =>
        if is_draw s.board_grid then
          .ok ({ s with winner := none, status := "finished" }, true)
        else
          .ok ({ s with current_player :=
                  if s.status ≠ "finished" then (s.current_player + 1) % s.players.length
                  else s.current_player }, true)

/-- `PentagoGame.process_move`: build the copy — which resets the first-move
sub-timer fields — then run the turn check, validation and move application
on it. -/
def process_move (s : PGameState) (m : PMove) (player_id : ℕ) :
    Except PyError (PGameState × Bool) :=
  process_move_on_copy (copy_state s) m player_id

/-- The `first_move` / `playing`-`disconnect_wait` elif chain of one
`GameEngine._game_timer` iteration (after the `waiting` initialisation), for a
non-tetris session.  The `Bool` records whether a forfeit `break` fired, which
skips the disconnection block. -/
def tick_stage (s : PGameState) : PGameState × Bool :=
  if s.status = "first_move" then
    -- `first_move_timer -= 1` (a `None` timer would raise in the source)
    let t := s.first_move_timer.getD 0 - 1
    let s := { s with first_move_timer := some t }
    if t ≤ 0 then
      ({ s with winner := some (s.players.getD ((s.current_player + 1) % s.players.length) ""),
                status := "finished" }, true)
    else (s, false)
  else if s.status = "playing" ∨ s.status = "disconnect_wait" then
    if s.current_player < s.time_remaining.length then
      let s := { s with time_remaining :=
        s.time_remaining.set s.current_player (s.time_remaining.getD s.current_player 0 - 1) }
      if s.time_remaining.getD s.current_player 0 ≤ 0 then
        ({ s with winner := some (s.players.getD ((s.current_player + 1) % s.players.length) ""),
                  status := "finished" }, true)
      else (s, false)
    else (s, false)
  else (s, false)

/-- The disconnection-timer block at the end of the loop body. -/
def disconnect_tick (s : PGameState) : PGameState :=
  if s.status ≠ "finished" ∧ (match s.disconnect_timer with
      | some t => decide (t > 0)
      | none => false) = true then
    let t := s.disconnect_timer.getD 0 - 1
    let s := { s with disconnect_timer := some t }
    if t ≤ 0 then
      { s with
          winner := some (s.players.getD ((s.disconnected_player.getD 0 + 1) % s.players.length) ""),
          status := "finished", disconnect_timer := none, disconnected_player := none }
    else s
  else s

/-- One iteration of `GameEngine._game_timer`'s loop body for a (non-tetris)
rotating-board session: the `waiting` initialisation, the `first_move` /
`playing`-`disconnect_wait` elif chain, then the disconnection-timer block.  A
forfeit `break` skips the disconnection block.  Broadcasts and cleanup are I/O
and not modelled. -/
def tick (s0 : PGameState) : PGameState :=
  let s :=
    if s0.status = "waiting" ∧ s0.players.length = 2 then
      { s0 with status := "first_move", first_move_player := some s0.current_player,
                first_move_timer := some 30 }
    else s0
  let stage := tick_stage s
  if stage.2 then stage.1 else disconnect_tick stage.1

/-! ### The four-in-a-row predicate the specification describes

Stated directly over cell coordinates, independently of `check_winner`'s scan
ranges; the anti-diagonal clause is parameterised by its *rightmost* column `c`,
so `c = 7` is a window ending at the board's right edge. -/

/-- Player `v` has four consecutive marks in a row. -/
def rowWin (g : Grid) (v : ℕ) : Prop :=
  ∃ r c, r < 8 ∧ c + 3 < 8 ∧ ∀ i < 4, cellAt g r (c + i) = some v

/-- Player `v` has four consecutive marks in a column. -/
def colWin (g : Grid) (v : ℕ) : Prop :=
  ∃ r c, r + 3 < 8 ∧ c < 8 ∧ ∀ i < 4, cellAt g (r + i) c = some v

/-- Player `v` has four consecutive marks on a main diagonal (down-right). -/
def diagWin (g : Grid) (v : ℕ) : Prop :=
  ∃ r c, r + 3 < 8 ∧ c + 3 < 8 ∧ ∀ i < 4, cellAt g (r + i) (c + i) = some v

/-- Player `v` has four consecutive marks on an anti-diagonal (down-left from
the top cell `(r, c)`; `c` is the window's rightmost column). -/
def antiWin (g : Grid) (v : ℕ) : Prop :=
  ∃ r c, r + 3 < 8 ∧ 3 ≤ c ∧ c < 8 ∧ ∀ i < 4, cellAt g (r + i) (c - i) = some v

/-- Some line of four consecutive identical non-empty marks exists for `v`. -/
def hasFour (g : Grid) (v : ℕ) : Prop :=
  rowWin g v ∨ colWin g v ∨ diagWin g v ∨ antiWin g v

end Pentago

/-! ## Falling-piece (tetris) rule engine — `games/tetris/board.py`, `games/tetris/logic.py` -/

namespace Tetris

/-- `TetrisBoard.BOARD_WIDTH`. -/
def BOARD_WIDTH : ℕ := 10

/-- `TetrisBoard.BOARD_HEIGHT`. -/
def BOARD_HEIGHT : ℕ := 20

/-- One shape matrix: rows of 0/1 flags. -/
abbrev Shape := List (List ℕ)

/-- `TetrisBoard.PIECES`: the four rotation states of every tetromino.  An
unknown key yields `[]` (the source would raise `KeyError`; every lookup is
guarded by a membership test). -/
def PIECES (t : String) : List Shape :=
  if t = "I" then
    [[[0,0,0,0],[1,1,1,1],[0,0,0,0],[0,0,0,0]],
     [[0,0,1,0],[0,0,1,0],[0,0,1,0],[0,0,1,0]],
     [[0,0,0,0],[0,0,0,0],[1,1,1,1],[0,0,0,0]],
     [[0,1,0,0],[0,1,0,0],[0,1,0,0],[0,1,0,0]]]
  else if t = "O" then
    [[[0,1,1,0],[0,1,1,0],[0,0,0,0]],
     [[0,1,1,0],[0,1,1,0],[0,0,0,0]],
     [[0,1,1,0],[0,1,1,0],[0,0,0,0]],
     [[0,1,1,0],[0,1,1,0],[0,0,0,0]]]
  else if t = "T" then
    [[[0,1,0],[1,1,1],[0,0,0]],
     [[0,1,0],[0,1,1],[0,1,0]],
     [[0,0,0],[1,1,1],[0,1,0]],
     [[0,1,0],[1,1,0],[0,1,0]]]
  else if t = "S" then
    [[[0,1,1],[1,1,0],[0,0,0]],
     [[0,1,0],[0,1,1],[0,0,1]],
     [[0,0,0],[0,1,1],[1,1,0]],
     [[1,0,0],[1,1,0],[0,1,0]]]
  else if t = "Z" then
    [[[1,1,0],[0,1,1],[0,0,0]],
     [[0,0,1],[0,1,1],[0,1,0]],
     [[0,0,0],[1,1,0],[0,1,1]],
     [[0,1,0],[1,1,0],[1,0,0]]]
  else if t = "J" then
    [[[1,0,0],[1,1,1],[0,0,0]],
     [[0,1,1],[0,1,0],[0,1,0]],
     [[0,0,0],[1,1,1],[0,0,1]],
     [[0,1,0],[0,1,0],[1,1,0]]]
  else if t = "L" then
    [[[0,0,1],[1,1,1],[0,0,0]],
     [[0,1,0],[0,1,0],[0,1,1]],
     [[0,0,0],[1,1,1],[1,0,0]],
     [[1,1,0],[0,1,0],[0,1,0]]]
  else []

/-- `list(self.PIECES.keys())` in insertion order. -/
def pieceTypes : List String := ["I", "O", "T", "S", "Z", "J", "L"]

/-- The playing grid: 20 rows of 10 small integers (0 = empty). -/
abbrev TGrid := List (List ℕ)

/-- `grid[gy][gx]` for indices already checked to be in bounds and
non-negative. -/
def gridCell (g : TGrid) (gy gx : ℤ) : ℕ :=
  (g.getD gy.toNat []).getD gx.toNat 0

/-- The falling piece dictionary `{'type', 'x', 'y', 'rotation'}`.  `x` and `y`
are integers and may legitimately be negative while every occupied shape cell
stays on the board. -/
structure FallingPiece where
  type : String
  x : ℤ
  y : ℤ
  rotation : ℕ
  deriving DecidableEq, Repr

/-- The tetris `board_state` dictionary.  `top_out` is absent-or-`True` in the
source, embedded as a `Bool` defaulting to `false`; `lines_cleared` is
key-absent until the first placement, embedded as an `Option`. -/
structure TBoard where
  grid : TGrid
  next_pieces : List String
  scores : List ℤ
  falling_piece : Option FallingPiece
  current_player_piece : Option String
  top_out : Bool := false
  lines_cleared : Option ℕ := none
  deriving DecidableEq, Repr

/-- `TetrisBoard._can_place_piece`: every occupied shape cell in bounds and
over an empty grid cell (the bounds test short-circuits the grid access). -/
def can_place_piece (g : TGrid) (shape : Shape) (x y : ℤ) : Bool :=
  (List.range shape.length).all fun py =>
    (List.range (shape.getD py []).length).all fun px =>
      if (shape.getD py []).getD px 0 ≠ 0 then
        let gx := x + px
        let gy := y + py
        decide (0 ≤ gx ∧ gx < (BOARD_WIDTH : ℤ) ∧ 0 ≤ gy ∧ gy < (BOARD_HEIGHT : ℤ)) &&
          decide (gridCell g gy gx = 0)
      else true

/-- `TetrisBoard._can_place_falling_piece`. -/
def can_place_falling_piece (g : TGrid) (p : FallingPiece) : Bool :=
  if p.type ∉ pieceTypes then false
  else can_place_piece g ((PIECES p.type).getD p.rotation []) p.x p.y

/-- Stamp the shape's occupied cells into the grid with value `v`
(the nested `for` loops of `apply_move` / `_place_falling_piece`). -/
def stampShape (g : TGrid) (shape : Shape) (x y : ℤ) (v : ℕ) : TGrid :=
  (List.range shape.length).foldl (fun acc py =>
    (List.range (shape.getD py []).length).foldl (fun acc px =>
      if (shape.getD py []).getD px 0 ≠ 0 then
        acc.set (y + py).toNat (((acc.getD (y + py).toNat []).set (x + px).toNat v))
      else acc) acc) g

/-- `all(cell != 0 for cell in row)`. -/
def isFullRow (row : List ℕ) : Bool := row.all (fun cell => cell ≠ 0)

/-- An empty row `[0] * BOARD_WIDTH`. -/
def emptyRow : List ℕ := List.replicate BOARD_WIDTH 0

/-- The body of `_clear_full_lines`' `while y >= 0` loop.  `y` is the number of
rows still to scan (the Python index plus one); on a full row the row is
deleted, an empty row is inserted at the top and `y` stays (the grid shifted
under the cursor); otherwise `y` decreases.  `fuel` bounds the iteration count
(`2 * length` always suffices, see `clearLoop_spec`); the source loop
terminates for the same reason the fuel bound holds. -/
def clearLoop (fuel : ℕ) (g : TGrid) (y : ℕ) (cleared : ℕ) : TGrid × ℕ :=
  match fuel, y with
  | 0, _ => (g, cleared)
  | _, 0 => (g, cleared)
  | fuel + 1, y + 1 =>
    if isFullRow (g.getD y []) then
      clearLoop fuel (emptyRow :: g.eraseIdx y) (y + 1) (cleared + 1)
    else
      clearLoop fuel g y cleared

/-- `TetrisBoard._clear_full_lines`: scan from the bottom row upward. -/
def clear_full_lines (g : TGrid) : TGrid × ℕ :=
  clearLoop (2 * g.length + 1) g g.length 0

/-- `TetrisBoard._calculate_score`: `[0, 40, 100, 300, 1200][min(n, 4)]`. -/
def calculate_score (lines_cleared : ℕ) : ℤ :=
  ([0, 40, 100, 300, 1200] : List ℤ).getD (min lines_cleared 4) 0

/-- `TetrisBoard.apply_move` for a placement move
`{'piece_type': t, 'rotation': rot, 'x': x, 'y': y}` by `player_id`. -/
def apply_move (bs : TBoard) (t : String) (rot : ℕ) (x y : ℤ) (player_id : ℕ) : TBoard :=
  let shape := (PIECES t).getD rot []
  let grid := stampShape bs.grid shape x y (player_id + 1)
  let cleared := clear_full_lines grid
  { bs with
      grid := cleared.1,
      scores := bs.scores.set player_id
        (bs.scores.getD player_id 0 + calculate_score cleared.2),
      next_pieces := bs.next_pieces.drop 1 }

/-- `TetrisBoard.start_falling_piece`: spawn the head of the queue centred at
the top.  No validity check is made at spawn. -/
def start_falling_piece (bs : TBoard) : TBoard :=
  match bs.next_pieces with
  | [] => bs
  | piece_type :: _ =>
    { bs with
        falling_piece := some
          { type := piece_type, x := (BOARD_WIDTH : ℤ) / 2 - 2, y := 0, rotation := 0 },
        current_player_piece := some piece_type }

/-- `TetrisBoard._place_falling_piece`.  The generated replacement piece is the
`newPiece` parameter: the caller constructs a *fresh* `TetrisBoard` for every
move and tick, so `_generate_next_piece` always pops the last element of a
freshly shuffled full bag (see `generatedPiece`). -/
def place_falling_piece (bs : TBoard) (newPiece : String) : TBoard × ℕ :=
  match bs.falling_piece with
  | none => (bs, 0)
  | some piece =>
    let shape := (PIECES piece.type).getD piece.rotation []
    if ¬ can_place_piece bs.grid shape piece.x piece.y then
      ({ bs with top_out := true }, 0)
    else
      let grid := stampShape bs.grid shape piece.x piece.y 3
      let cleared := clear_full_lines grid
      ({ bs with
          grid := cleared.1,
          lines_cleared := some cleared.2,
          next_pieces := bs.next_pieces.drop 1 ++ [newPiece],
          falling_piece := none,
          current_player_piece := none }, cleared.2)

/-- The transformed piece a move request proposes (the `new_piece` computed at
the top of `move_falling_piece`). -/
def shiftedPiece (piece : FallingPiece) (direction : String) : FallingPiece :=
  if direction = "left" then { piece with x := piece.x - 1 }
  else if direction = "right" then { piece with x := piece.x + 1 }
  else if direction = "down" then { piece with y := piece.y + 1 }
  else if direction = "rotate" then { piece with rotation := (piece.rotation + 1) % 4 }
  else piece

/-- `TetrisBoard.move_falling_piece`. -/
def move_falling_piece (bs : TBoard) (newPiece : String) (direction : String) : TBoard :=
  match bs.falling_piece with
  | none => bs
  | some piece =>
    let new_piece := shiftedPiece piece direction
    if can_place_falling_piece bs.grid new_piece then
      { bs with falling_piece := some new_piece }
    else if direction = "down" then
      (place_falling_piece bs newPiece).1
    else bs

/-- `TetrisBoard.is_valid_move` for a fully specified placement move. -/
def is_valid_move (bs : TBoard) (t : String) (rot : ℤ) (x y : ℤ) : Bool :=
  if t ∉ pieceTypes then false
  else if ¬ (0 ≤ rot ∧ rot < 4) then false
  else can_place_piece bs.grid ((PIECES t).getD rot.toNat []) x y

/-- `TetrisGame._get_piece_bounds`: bounding box of the occupied cells.  The
source starts from `float('inf')`; shapes are never empty, so any initial
value at least the matrix dimensions is equivalent — `1000` is used here. -/
def get_piece_bounds (shape : Shape) : ℕ × ℕ × ℕ × ℕ :=
  (List.range shape.length).foldl (fun acc y =>
    (List.range (shape.getD y []).length).foldl (fun acc x =>
      if (shape.getD y []).getD x 0 ≠ 0 then
        (min acc.1 x, max acc.2.1 x, min acc.2.2.1 y, max acc.2.2.2 y)
      else acc) acc) (1000, 0, 1000, 0)

/-- `TetrisGame._has_valid_moves`: some rotation and some in-bounds position of
the bounding box admits a valid placement. -/
def has_valid_moves (bs : TBoard) (piece_type : String) : Bool :=
  (List.range 4).any fun rotation =>
    let shape := (PIECES piece_type).getD rotation []
    let b := get_piece_bounds shape
    let actual_width := b.2.1 - b.1 + 1
    let actual_height := b.2.2.2 - b.2.2.1 + 1
    (List.range (BOARD_WIDTH - actual_width + 1)).any fun x =>
      (List.range (BOARD_HEIGHT - actual_height + 1)).any fun y =>
        is_valid_move bs piece_type rotation x y

/-- `TetrisGame._can_player_make_move`: the head of the queue has a valid
placement somewhere. -/
def can_player_make_move (bs : TBoard) : Bool :=
  match bs.next_pieces with
  | [] => false
  | piece_type :: _ => has_valid_moves bs piece_type

/-- The tetris session state as the logic reads and writes it. `players` is the
list of display names.  Engine-managed fields the logic merely copies
(`moves_history`, `first_move_*`, `disconnect_*`, timestamps) are omitted. -/
structure TGameState where
  status : String
  players : List String
  current_player : ℕ
  board_state : TBoard
  time_remaining : List ℚ
  winner : Option String
  deriving DecidableEq, Repr

/-- The move payload keys `TetrisGame.process_move` reads. -/
structure TMove where
  action : Option String
  direction : Option String
  deriving DecidableEq, Repr

/-- The `while` loop of the `'lock'` action: drive the piece down until it
locks or `top_out` appears.  Returns the board and whether `top_out` was
observed.  `fuel` bounds the iterations; `BOARD_HEIGHT + 2` suffices since
every non-final iteration increases the piece's `y`. -/
def lockLoop (fuel : ℕ) (bs : TBoard) (newPiece : String) : TBoard × Bool :=
  match fuel with
  | 0 => (bs, false)
  | fuel + 1 =>
    if bs.falling_piece = none then (bs, false)
    else
      let bs := move_falling_piece bs newPiece "down"
      if bs.top_out then (bs, true)
      else lockLoop fuel bs newPiece

/-- The `GameState(...)` copy built at the top of `TetrisGame.process_move`:
`GameState.chat_history` is a dataclass field with no default value and the
constructor call omits it, so the construction raises
`TypeError: missing required argument` on every call, before the turn check
is reached. -/
def copy_game_state (_s : TGameState) : Except PyError TGameState :=
  .error .typeError

/-- The move-processing code of `TetrisGame.process_move` below the state
copy, acting on the copied state.  In the source this code is unreachable:
the copy above it raises on every call.  Returns `(new_state, move_valid)`.
The `newPiece` parameter stands for the one `_generate_next_piece` draw a
placement makes (see `place_falling_piece`). -/
def process_move_body (s : TGameState) (m : TMove) (player_id : ℕ) (newPiece : String) :
    TGameState × Bool :=
  if player_id ≠ s.current_player then (s, false)
  else if m.action = some "move" then
    if m.direction = some "left" ∨ m.direction = some "right" ∨
        m.direction = some "down" ∨ m.direction = some "rotate" then
      let s := { s with board_state :=
        move_falling_piece s.board_state newPiece (m.direction.getD "") }
      if m.direction = some "down" ∧ s.board_state.falling_piece = none then
        let next_player := (s.current_player + 1) % s.players.length
        let s := { s with current_player := next_player }
        if ¬ can_player_make_move s.board_state then
          -- source comment: "Current player wins - opponent cannot place piece";
          -- but `current_player` was reassigned to `next_player` just above,
          -- so the name recorded as winner is the player who cannot place
          ({ s with winner := some (s.players.getD s.current_player ""),
                    status := "finished" }, true)
        else
          ({ s with board_state := start_falling_piece s.board_state }, true)
      else (s, true)
    else (s, false)
  else if m.action = some "lock" then
    let run := lockLoop (BOARD_HEIGHT + 2) s.board_state newPiece
    if run.2 then
      let opponent := (s.current_player + 1) % s.players.length
      ({ s with board_state := run.1,
                winner := some (s.players.getD opponent ""),
                status := "finished" }, true)
    else
      let s := { s with board_state := run.1 }
      let s :=
        match s.board_state.lines_cleared with
        | some lc =>
          if lc > 0 then
            let bs := s.board_state
            let newScores := bs.scores.set s.current_player
              (bs.scores.getD s.current_player 0 + calculate_score lc)
            { s with board_state := { bs with scores := newScores } }
          else s
        | none => s
      let next_player := (s.current_player + 1) % s.players.length
      let s := { s with current_player := next_player }
      if ¬ can_player_make_move s.board_state then
        -- same reassignment as in the 'move' branch: the recorded winner is
        -- the player who cannot place
        ({ s with winner := some (s.players.getD s.current_player ""),
                  status := "finished" }, true)
      else
        ({ s with board_state := start_falling_piece s.board_state }, true)
  else (s, false)

/-- `TetrisGame.process_move`: the state copy raises `TypeError` on every
call, so the function never returns a `(new_state, move_valid)` pair and the
move-processing code (`process_move_body`) never runs. -/
def process_move (s : TGameState) (m : TMove) (player_id : ℕ) (newPiece : String) :
    Except PyError (TGameState × Bool) :=
  match copy_game_state s with
  | .error e => .error e
  | .ok new_state => .ok (process_move_body new_state m player_id newPiece)

end Tetris

/-! ## Piece generation — `TetrisBoard._generate_next_piece`

The generator keeps its bag in `self._piece_bag`, refills it with
`random.shuffle(list(self.PIECES.keys()))` when empty and pops the *last*
element.  Shuffle outcomes are passed in as an explicit stream
`shuffles : ℕ → List String`; a well-formed run has every entry a permutation
of `canonicalBag`. -/

namespace Bag

/-- `list(self.PIECES.keys())` before shuffling. -/
def canonicalBag : List String := Tetris.pieceTypes

/-- The generator state: the current bag plus the index of the next shuffle
outcome to consume. -/
structure BagState where
  bag : List String
  idx : ℕ
  deriving DecidableEq, Repr

/-- `_generate_next_piece` on a board whose `_piece_bag` persists: refill from
the next shuffle when empty, then `pop()` the last element (`pop` on an empty
bag cannot happen because a refill always yields 7 elements). -/
def generate_next_piece (shuffles : ℕ → List String) (s : BagState) : String × BagState :=
  let refill := if s.bag = [] then (shuffles s.idx, s.idx + 1) else (s.bag, s.idx)
  ((refill.1.getLast?).getD "", { bag := refill.1.dropLast, idx := refill.2 })

/-- Emit `n` consecutive pieces from a persistent-bag generator. -/
def emitN (shuffles : ℕ → List String) : BagState → ℕ → List String × BagState
  | s, 0 => ([], s)
  | s, n + 1 =>
    let step := generate_next_piece shuffles s
    let rest := emitN shuffles step.2 n
    (step.1 :: rest.1, rest.2)

/-- Piece generation as the engines actually invoke it: `TetrisGameEngine` and
`GameFactory.create_game_logic` construct a **fresh** `TetrisBoard` for every
move and every tick, so `_piece_bag` is empty on every call; each call refills
it with a fresh shuffle, pops the last element and discards the rest with the
board instance.  The `n`-th generated piece of a run is therefore the last
element of the `n`-th shuffle outcome. -/
def generatedPiece (shuffles : ℕ → List String) (n : ℕ) : String :=
  ((shuffles n).getLast?).getD ""

end Bag

/-! ## Matchmaking — `matchmaking.py` -/

namespace Matchmaking

/-- A pool entry (`WaitingPlayer`); the fields `try_match` compares.  Pydantic
models compare field-by-field, so entry equality is structural. -/
structure Entry where
  user_id : String
  rating : ℚ
  joined_at : ℚ
  deriving DecidableEq, Repr, Inhabited

/-- The scan `for i in range(len(players) - 1)` keeping the first adjacent pair
whose gap is strictly below the minimum seen so far.  The accumulator holds
`(min_diff, index)`; `none` plays the role of `float('inf')` with no pair. -/
def findMinGap : List (ℚ × ℕ) → Option (ℚ × ℕ) → Option (ℚ × ℕ)
  | [], acc => acc
  | (d, i) :: rest, acc =>
    findMinGap rest
      (match acc with
       | none => some (d, i)
       | some di => if d < di.1 then some (d, i) else some di)

/-- The list of adjacent gaps `|players[i].rating - players[i+1].rating|`
paired with their index. -/
def gapList (pool : List Entry) : List (ℚ × ℕ) :=
  (List.range (pool.length - 1)).map (fun i =>
    (|(pool.getD i default).rating - (pool.getD (i+1) default).rating|, i))

/-- `try_match`: `None` when the pool has fewer than two entries or the
smallest adjacent gap exceeds 150; otherwise the selected pair together with
the remaining pool `[p for p in players if p not in pair]`. -/
def try_match (pool : List Entry) : Option ((Entry × Entry) × List Entry) :=
  if pool.length < 2 then none
  else
    match findMinGap (gapList pool) none with
    | none => none
    | some di =>
      if di.1 ≤ 150 then
        let a := pool.getD di.2 default
        let b := pool.getD (di.2 + 1) default
        some ((a, b), pool.filter (fun p => ¬ (p = a ∨ p = b)))
      else none

/-- The sort order `join_pool` maintains: ratings ascending, ties by earlier
join time. -/
def poolLE (a b : Entry) : Prop :=
  a.rating < b.rating ∨ (a.rating = b.rating ∧ a.joined_at ≤ b.joined_at)

instance : DecidableRel poolLE := fun a b =>
  decidable_of_iff
    (a.rating < b.rating ∨ (a.rating = b.rating ∧ a.joined_at ≤ b.joined_at))
    Iff.rfl

end Matchmaking

/-! ## Bot move selection — `services/bot_manager.py` -/

namespace Bot

/-- `_estimate_stack_height`: distance from the top row to the first
non-empty row (0 on an empty grid). -/
def estimate_stack_height (grid : Tetris.TGrid) : ℕ :=
  match (List.range grid.length).find? (fun y => (grid.getD y []).any (fun cell => cell ≠ 0)) with
  | some y => grid.length - y
  | none => 0

/-- The `(target_rotation, target_x)` choice in `_play_tetris_turn`.  `rotDraw`
and `xDraw` stand for the two `random.randint` results (`randint(0, 3)` and
`randint(0, max(0, width - 1))`).  Note that the difficulty conditional has the
same expression on both branches: the target is a uniform random draw at every
difficulty, independent of the board. -/
def play_tetris_target (difficulty : ℕ) (rotDraw xDraw : ℕ) : ℕ × ℕ :=
  ((if difficulty ≤ 3 then rotDraw else rotDraw), xDraw)

/-- Modelled from the spec: the score `_select_tetris_move` is described to
assign a simulated placement — `lines_cleared * 10` minus the stack-height
penalty of the resulting grid (`_select_tetris_move` itself routes its
candidate moves through `process_move`, which ignores placement payloads, and
`schedule_bot_move` never calls it for tetris; the spec's scoring rule is the
reference the bot's actual play is checked against). -/
def placementScore (g : Tetris.TGrid) (t : String) (rot : ℕ) (x y : ℤ) : ℤ :=
  let stamped := Tetris.stampShape g ((Tetris.PIECES t).getD rot []) x y 3
  let cleared := Tetris.clear_full_lines stamped
  (cleared.2 : ℤ) * 10 - (estimate_stack_height cleared.1 : ℤ)

/-- A legal placement of piece `t` on grid `g` (every occupied cell in bounds
and over an empty cell, rotation in range), as `is_valid` describes. -/
def legalPlacement (g : Tetris.TGrid) (t : String) (rot : ℕ) (x y : ℤ) : Prop :=
  rot < 4 ∧ Tetris.can_place_piece g ((Tetris.PIECES t).getD rot []) x y = true

end Bot

/-! ## Concrete fixtures used by witnesses and counterexamples -/

namespace Fixtures

/-- An 8×8 grid whose only marks are four `0`-marks on the anti-diagonal
ending at the right edge: `(0,7), (1,6), (2,5), (3,4)` (row, column). -/
def antiEdgeGrid : Pentago.Grid :=
  (List.range 8).map (fun r =>
    (List.range 8).map (fun c => if r + c = 7 ∧ r < 4 then some 0 else none))

/-- An empty 20×10 tetris grid. -/
def emptyTGrid : Tetris.TGrid := List.replicate 20 (List.replicate 10 0)

/-- A 20-row tetris grid whose bottom row is full and all others empty. -/
def c9grid : Tetris.TGrid :=
  List.replicate 19 (List.replicate 10 0) ++ [List.replicate 10 7]

/-- A fresh rotating-board session with slot 0 to move. -/
def pState : Pentago.PGameState where
  status := "playing"
  players := ["Pia", "Quinn"]
  current_player := 0
  board_grid := Pentago.emptyGrid
  time_remaining := [300, 300]
  winner := none
  moves_history := []
  increment := 3
  first_move_timer := none
  first_move_player := none
  disconnect_timer := none
  disconnected_player := none

/-- A tetris session whose falling `O` piece hugs the left wall (its occupied
columns are 0 and 1), so a `left` shift is blocked. -/
def blockedState : Tetris.TGameState where
  status := "playing"
  players := ["Alice", "Bob"]
  current_player := 0
  board_state :=
    { grid := emptyTGrid, next_pieces := ["O", "I"], scores := [0, 0],
      falling_piece := some { type := "O", x := -1, y := 0, rotation := 0 },
      current_player_piece := some "O" }
  time_remaining := [10, 10]
  winner := none

end Fixtures

/-! ## Proofs -/

section ListHelpers

variable {α : Type}

lemma getD_set_self (l : List α) (i : ℕ) (v d : α) (h : i < l.length) :
    (l.set i v).getD i d = v := by
  simp [List.getD_eq_getElem?_getD, List.getElem?_set_self h]

lemma getD_set_ne (l : List α) {i j : ℕ} (v d : α) (h : j ≠ i) :
    (l.set i v).getD j d = l.getD j d := by
  simp [List.getD_eq_getElem?_getD, List.getElem?_set_ne (Ne.symm h)]

lemma set_getD_self (l : List α) (i : ℕ) (d : α) (h : i < l.length) :
    l.set i (l.getD i d) = l := by
  apply List.ext_getElem?
  intro j
  by_cases hj : j = i
  · subst hj
    simp [List.getElem?_set_self h, List.getD_eq_getElem?_getD, List.getElem?_eq_getElem h]
  · simp [List.getElem?_set_ne (Ne.symm hj)]

end ListHelpers

namespace Pentago

/-! ### Lemmas about the win scan -/

lemma getD_of_lt {α : Type} {l : List α} {i : ℕ} (h : i < l.length) (d : α) :
    l.getD i d = l[i] := by
  simp [List.getD_eq_getElem?_getD, List.getElem?_eq_getElem h]

lemma getD_map_range {α : Type} (f : ℕ → α) {n i : ℕ} (h : i < n) (d : α) :
    ((List.range n).map f).getD i d = f i := by
  have hl : i < ((List.range n).map f).length := by simpa using h
  rw [getD_of_lt hl]
  simp [h]

lemma checkWindow_eq_some_iff {line : List Cell} {i : ℕ} {v : ℕ} :
    checkWindow line i = some v ↔
      (line.getD i none = some v ∧ line.getD (i+1) none = some v ∧
       line.getD (i+2) none = some v ∧ line.getD (i+3) none = some v) := by
  unfold checkWindow
  rcases h : line.getD i none with _ | w
  · simp [h]
  · simp only [h]
    by_cases hc : line.getD (i+1) none = some w ∧ line.getD (i+2) none = some w ∧
        line.getD (i+3) none = some w
    · simp only [if_pos hc]
      constructor
      · intro h'
        injection h' with h''
        subst h''
        exact ⟨rfl, hc.1, hc.2.1, hc.2.2⟩
      · exact fun h' => h'.1
    · simp only [if_neg hc]
      constructor
      · intro h'
        exact Option.noConfusion h'
      · rintro ⟨h0, h1, h2, h3⟩
        injection h0 with h0
        subst h0
        exact absurd ⟨h1, h2, h3⟩ hc

lemma checkLine_eq_none_iff {line : List Cell} :
    checkLine line = none ↔ ∀ i, i + 3 < line.length → checkWindow line i = none := by
  unfold checkLine
  rw [List.findSome?_eq_none_iff]
  constructor
  · intro h i hi
    exact h i (List.mem_range.2 (by omega))
  · intro h i hi
    exact h i (by have := List.mem_range.1 hi; omega)

lemma checkLine_eq_some {line : List Cell} {v : ℕ} (h : checkLine line = some v) :
    ∃ i, i + 3 < line.length ∧ checkWindow line i = some v := by
  obtain ⟨i, hi, hw⟩ := List.exists_of_findSome?_eq_some h
  exact ⟨i, by have := List.mem_range.1 hi; omega, hw⟩

lemma forall_lt_four {P : ℕ → Prop} (h0 : P 0) (h1 : P 1) (h2 : P 2) (h3 : P 3) :
    ∀ k < 4, P k := by
  intro k hk
  interval_cases k <;> assumption

/-- Row lengths of a well-formed grid. -/
lemma WFGrid.row_len {g : Grid} (h : WFGrid g) {r : ℕ} (hr : r < 8) :
    (g.getD r []).length = 8 := by
  have hlen : r < g.length := by rw [h.1]; exact hr
  rw [getD_of_lt hlen]
  exact h.2 _ (List.getElem_mem hlen)

lemma cellAt_eq_row_getD (g : Grid) (r c : ℕ) :
    cellAt g r c = (g.getD r []).getD c none := rfl

lemma colList_getD {g : Grid} {k : ℕ} (hk : k < 8) (c : ℕ) :
    (colList g c).getD k none = cellAt g k c :=
  getD_map_range _ hk _

lemma diagList_getD {g : Grid} {k : ℕ} (hk : k < 4) (sr sc : ℕ) :
    (diagList g sr sc).getD k none = cellAt g (sr + k) (sc + k) :=
  getD_map_range _ hk _

lemma antiList_getD {g : Grid} {k : ℕ} (hk : k < 4) (sr sc : ℕ) :
    (antiList g sr sc).getD k none = cellAt g (sr + k) (sc + 3 - k) :=
  getD_map_range _ hk _

lemma BOARD_SIZE_eq : BOARD_SIZE = 8 := rfl

lemma colList_length (g : Grid) (c : ℕ) : (colList g c).length = 8 := by
  simp [colList, BOARD_SIZE_eq]

lemma diagList_length (g : Grid) (sr sc : ℕ) : (diagList g sr sc).length = 4 := by
  simp [diagList]

lemma antiList_length (g : Grid) (sr sc : ℕ) : (antiList g sr sc).length = 4 := by
  simp [antiList]

lemma check_winner_eq_some_hasFour {g : Grid} {v : ℕ} (hwf : WFGrid g)
    (h : check_winner g = some v) : hasFour g v := by
  have hglen : g.length = 8 := by rw [hwf.1, BOARD_SIZE_eq]
  unfold check_winner at h
  split at h
  · -- a row matched
    next w h1 =>
    injection h with h
    subst h
    obtain ⟨row, hmem, hline⟩ := List.exists_of_findSome?_eq_some h1
    obtain ⟨r, hrlen, rfl⟩ := List.mem_iff_getElem.1 hmem
    obtain ⟨i, hi, hw⟩ := checkLine_eq_some hline
    have hrowlen : (g[r]).length = 8 := hwf.2 _ hmem
    have hgd : g.getD r [] = g[r] := getD_of_lt hrlen []
    rw [checkWindow_eq_some_iff] at hw
    refine Or.inl ⟨r, i, by omega, by omega, ?_⟩
    refine forall_lt_four (P := fun k => cellAt g r (i + k) = some w) ?_ ?_ ?_ ?_
    · show cellAt g r (i + 0) = some w
      rw [cellAt_eq_row_getD, hgd]; exact hw.1
    · show cellAt g r (i + 1) = some w
      rw [cellAt_eq_row_getD, hgd]; exact hw.2.1
    · show cellAt g r (i + 2) = some w
      rw [cellAt_eq_row_getD, hgd]; exact hw.2.2.1
    · show cellAt g r (i + 3) = some w
      rw [cellAt_eq_row_getD, hgd]; exact hw.2.2.2
  · next h1 =>
    split at h
    · -- a column matched
      next w h2 =>
      injection h with h
      subst h
      obtain ⟨c, hcm, hline⟩ := List.exists_of_findSome?_eq_some h2
      have hc8 : c < 8 := by
        have := List.mem_range.1 hcm; rw [BOARD_SIZE_eq] at this; omega
      obtain ⟨i, hi, hw⟩ := checkLine_eq_some hline
      rw [colList_length] at hi
      rw [checkWindow_eq_some_iff] at hw
      refine Or.inr (Or.inl ⟨i, c, by omega, hc8, ?_⟩)
      refine forall_lt_four (P := fun k => cellAt g (i + k) c = some w) ?_ ?_ ?_ ?_
      · show cellAt g (i + 0) c = some w
        rw [← colList_getD (g := g) (k := i + 0) (by omega) c]; exact hw.1
      · show cellAt g (i + 1) c = some w
        rw [← colList_getD (g := g) (k := i + 1) (by omega) c]; exact hw.2.1
      · show cellAt g (i + 2) c = some w
        rw [← colList_getD (g := g) (k := i + 2) (by omega) c]; exact hw.2.2.1
      · show cellAt g (i + 3) c = some w
        rw [← colList_getD (g := g) (k := i + 3) (by omega) c]; exact hw.2.2.2
    · -- a diagonal matched
      next h2 =>
      obtain ⟨sr, hsrm, hinner⟩ := List.exists_of_findSome?_eq_some h
      obtain ⟨sc, hscm, hmatch⟩ := List.exists_of_findSome?_eq_some hinner
      have hsr5 : sr < 5 := by
        have := List.mem_range.1 hsrm; rw [BOARD_SIZE_eq] at this; omega
      have hsc5 : sc < 5 := by
        have := List.mem_range.1 hscm; rw [BOARD_SIZE_eq] at this; omega
      split at hmatch
      · -- main diagonal
        next w h3 =>
        injection hmatch with hmatch
        subst hmatch
        obtain ⟨i, hi, hw⟩ := checkLine_eq_some h3
        rw [diagList_length] at hi
        have hi0 : i = 0 := by omega
        subst hi0
        rw [checkWindow_eq_some_iff] at hw
        refine Or.inr (Or.inr (Or.inl ⟨sr, sc, by omega, by omega, ?_⟩))
        refine forall_lt_four (P := fun k => cellAt g (sr + k) (sc + k) = some w) ?_ ?_ ?_ ?_
        · show cellAt g (sr + 0) (sc + 0) = some w
          rw [← diagList_getD (g := g) (k := 0) (by norm_num) sr sc]; exact hw.1
        · show cellAt g (sr + 1) (sc + 1) = some w
          rw [← diagList_getD (g := g) (k := 0 + 1) (by norm_num) sr sc]; exact hw.2.1
        · show cellAt g (sr + 2) (sc + 2) = some w
          rw [← diagList_getD (g := g) (k := 0 + 2) (by norm_num) sr sc]; exact hw.2.2.1
        · show cellAt g (sr + 3) (sc + 3) = some w
          rw [← diagList_getD (g := g) (k := 0 + 3) (by norm_num) sr sc]; exact hw.2.2.2
      · -- anti-diagonal
        next h3 =>
        obtain ⟨i, hi, hw⟩ := checkLine_eq_some hmatch
        rw [antiList_length] at hi
        have hi0 : i = 0 := by omega
        subst hi0
        rw [checkWindow_eq_some_iff] at hw
        refine Or.inr (Or.inr (Or.inr ⟨sr, sc + 3, by omega, by omega, by omega, ?_⟩))
        refine forall_lt_four (P := fun k => cellAt g (sr + k) (sc + 3 - k) = some v) ?_ ?_ ?_ ?_
        · show cellAt g (sr + 0) (sc + 3 - 0) = some v
          rw [← antiList_getD (g := g) (k := 0) (by norm_num) sr sc]; exact hw.1
        · show cellAt g (sr + 1) (sc + 3 - 1) = some v
          rw [← antiList_getD (g := g) (k := 0 + 1) (by norm_num) sr sc]; exact hw.2.1
        · show cellAt g (sr + 2) (sc + 3 - 2) = some v
          rw [← antiList_getD (g := g) (k := 0 + 2) (by norm_num) sr sc]; exact hw.2.2.1
        · show cellAt g (sr + 3) (sc + 3 - 3) = some v
          rw [← antiList_getD (g := g) (k := 0 + 3) (by norm_num) sr sc]; exact hw.2.2.2

lemma not_hasFour_of_check_winner_eq_none {g : Grid} (hwf : WFGrid g)
    (h : check_winner g = none) : ∀ v, ¬ hasFour g v := by
  have hglen : g.length = 8 := by rw [hwf.1, BOARD_SIZE_eq]
  have hrange53 : BOARD_SIZE - 3 = 5 := rfl
  unfold check_winner at h
  split at h
  · exact absurd h (by simp)
  next h1 =>
  split at h
  · exact absurd h (by simp)
  next h2 =>
  rw [List.findSome?_eq_none_iff] at h1 h2 h
  intro v hf
  rcases hf with ⟨r, c, hr, hc, cells⟩ | ⟨r, c, hr, hc, cells⟩ |
    ⟨r, c, hr, hc, cells⟩ | ⟨r, c, hr, hc3, hc, cells⟩
  · -- row
    have hrlen : r < g.length := by omega
    have hmem : g[r] ∈ g := List.getElem_mem hrlen
    have hnone := checkLine_eq_none_iff.1 (h1 _ hmem) c
      (by rw [hwf.2 _ hmem, BOARD_SIZE_eq]; omega)
    have hgd : g.getD r [] = g[r] := getD_of_lt hrlen []
    have hsome : checkWindow (g[r]) c = some v := by
      rw [checkWindow_eq_some_iff, ← hgd]
      exact ⟨cells 0 (by norm_num), cells 1 (by norm_num),
        cells 2 (by norm_num), cells 3 (by norm_num)⟩
    rw [hnone] at hsome
    exact Option.noConfusion hsome
  · -- column
    have hnone := checkLine_eq_none_iff.1
      (h2 c (List.mem_range.2 (show c < BOARD_SIZE by rw [BOARD_SIZE_eq]; omega))) r
      (by rw [colList_length]; omega)
    have hsome : checkWindow (colList g c) r = some v := by
      rw [checkWindow_eq_some_iff]
      refine ⟨?_, ?_, ?_, ?_⟩
      · rw [colList_getD (k := r) (by omega) c]; exact cells 0 (by norm_num)
      · rw [colList_getD (k := r + 1) (by omega) c]; exact cells 1 (by norm_num)
      · rw [colList_getD (k := r + 2) (by omega) c]; exact cells 2 (by norm_num)
      · rw [colList_getD (k := r + 3) (by omega) c]; exact cells 3 (by norm_num)
    rw [hnone] at hsome
    exact Option.noConfusion hsome
  · -- main diagonal
    have hm := h r (List.mem_range.2 (by omega))
    rw [List.findSome?_eq_none_iff] at hm
    have hm := hm c (List.mem_range.2 (by omega))
    split at hm
    · exact absurd hm (by simp)
    next h3 =>
    have hnone := checkLine_eq_none_iff.1 h3 0 (by rw [diagList_length]; omega)
    have hsome : checkWindow (diagList g r c) 0 = some v := by
      rw [checkWindow_eq_some_iff]
      refine ⟨?_, ?_, ?_, ?_⟩
      · rw [diagList_getD (k := 0) (by norm_num) r c]; exact cells 0 (by norm_num)
      · rw [diagList_getD (k := 0 + 1) (by norm_num) r c]; exact cells 1 (by norm_num)
      · rw [diagList_getD (k := 0 + 2) (by norm_num) r c]; exact cells 2 (by norm_num)
      · rw [diagList_getD (k := 0 + 3) (by norm_num) r c]; exact cells 3 (by norm_num)
    rw [hnone] at hsome
    exact Option.noConfusion hsome
  · -- anti-diagonal, rightmost column c ∈ [3, 8)
    have hm := h r (List.mem_range.2 (by omega))
    rw [List.findSome?_eq_none_iff] at hm
    have hm := hm (c - 3) (List.mem_range.2 (by omega))
    split at hm
    · exact absurd hm (by simp)
    next h3 =>
    have hnone := checkLine_eq_none_iff.1 hm 0 (by rw [antiList_length]; omega)
    have hsome : checkWindow (antiList g r (c - 3)) 0 = some v := by
      rw [checkWindow_eq_some_iff]
      refine ⟨?_, ?_, ?_, ?_⟩
      · rw [antiList_getD (k := 0) (by norm_num) r (c - 3),
          show c - 3 + 3 - 0 = c - 0 from by omega]
        exact cells 0 (by norm_num)
      · rw [antiList_getD (k := 0 + 1) (by norm_num) r (c - 3),
          show c - 3 + 3 - (0 + 1) = c - 1 from by omega]
        exact cells 1 (by norm_num)
      · rw [antiList_getD (k := 0 + 2) (by norm_num) r (c - 3),
          show c - 3 + 3 - (0 + 2) = c - 2 from by omega]
        exact cells 2 (by norm_num)
      · rw [antiList_getD (k := 0 + 3) (by norm_num) r (c - 3),
          show c - 3 + 3 - (0 + 3) = c - 3 from by omega]
        exact cells 3 (by norm_num)
    rw [hnone] at hsome
    exact Option.noConfusion hsome

/-! ### Field lemmas for the first-move block -/

lemma first_move_update_board (s : PGameState) :
    (first_move_update s).board_grid = s.board_grid := by
  unfold first_move_update; dsimp only; split_ifs <;> rfl

lemma first_move_update_time (s : PGameState) :
    (first_move_update s).time_remaining = s.time_remaining := by
  unfold first_move_update; dsimp only; split_ifs <;> rfl

lemma first_move_update_history (s : PGameState) :
    (first_move_update s).moves_history = s.moves_history := by
  unfold first_move_update; dsimp only; split_ifs <;> rfl

lemma first_move_update_current (s : PGameState) :
    (first_move_update s).current_player = s.current_player := by
  unfold first_move_update; dsimp only; split_ifs <;> rfl

lemma first_move_update_players (s : PGameState) :
    (first_move_update s).players = s.players := by
  unfold first_move_update; dsimp only; split_ifs <;> rfl

lemma first_move_update_winner (s : PGameState) :
    (first_move_update s).winner = s.winner := by
  unfold first_move_update; dsimp only; split_ifs <;> rfl

lemma first_move_update_status_ne (s : PGameState) (h : s.status ≠ "finished") :
    (first_move_update s).status ≠ "finished" := by
  unfold first_move_update
  dsimp only
  split_ifs with h1 h2 h3 <;> simp_all

/-! ### Lemmas about the engine tick -/

lemma tick_stage_active_ok (s : PGameState)
    (hst : s.status = "playing" ∨ s.status = "disconnect_wait")
    (hcur : s.current_player < s.time_remaining.length)
    (hnle : ¬ s.time_remaining.getD s.current_player 0 - 1 ≤ 0) :
    tick_stage s = ({ s with time_remaining :=
      (s.time_remaining.set s.current_player
        (s.time_remaining.getD s.current_player 0 - 1)) }, false) := by
  rcases hst with h | h <;>
    (unfold tick_stage
     rw [if_neg (by simp [h]), if_pos (by simp [h]), if_pos hcur]
     dsimp only
     rw [getD_set_self _ _ _ _ hcur, if_neg hnle])

lemma tick_stage_active_forfeit (s : PGameState)
    (hst : s.status = "playing" ∨ s.status = "disconnect_wait")
    (hcur : s.current_player < s.time_remaining.length)
    (hle : s.time_remaining.getD s.current_player 0 - 1 ≤ 0) :
    tick_stage s = ({ s with
      time_remaining :=
        (s.time_remaining.set s.current_player
          (s.time_remaining.getD s.current_player 0 - 1)),
      winner := some (s.players.getD ((s.current_player + 1) % s.players.length) ""),
      status := "finished" }, true) := by
  rcases hst with h | h <;>
    (unfold tick_stage
     rw [if_neg (by simp [h]), if_pos (by simp [h]), if_pos hcur]
     dsimp only
     rw [getD_set_self _ _ _ _ hcur, if_pos hle])

lemma tick_stage_fm_ok (s : PGameState) (t : ℚ)
    (hst : s.status = "first_move") (hft : s.first_move_timer = some t)
    (hnle : ¬ t - 1 ≤ 0) :
    tick_stage s = ({ s with first_move_timer := some (t - 1) }, false) := by
  unfold tick_stage
  rw [if_pos hst, hft]
  simp only [Option.getD_some]
  rw [if_neg hnle]

lemma tick_stage_fm_forfeit (s : PGameState) (t : ℚ)
    (hst : s.status = "first_move") (hft : s.first_move_timer = some t)
    (hle : t - 1 ≤ 0) :
    tick_stage s = ({ s with
      first_move_timer := some (t - 1),
      winner := some (s.players.getD ((s.current_player + 1) % s.players.length) ""),
      status := "finished" }, true) := by
  unfold tick_stage
  rw [if_pos hst, hft]
  simp only [Option.getD_some]
  rw [if_pos hle]

lemma disconnect_tick_time (s : PGameState) :
    (disconnect_tick s).time_remaining = s.time_remaining := by
  unfold disconnect_tick
  dsimp only
  split_ifs <;> rfl

lemma disconnect_tick_fmt (s : PGameState) :
    (disconnect_tick s).first_move_timer = s.first_move_timer := by
  unfold disconnect_tick
  dsimp only
  split_ifs <;> rfl

lemma tick_active_time (s : PGameState)
    (hst : s.status = "playing" ∨ s.status = "disconnect_wait")
    (hcur : s.current_player < s.time_remaining.length) :
    (tick s).time_remaining =
      s.time_remaining.set s.current_player
        (s.time_remaining.getD s.current_player 0 - 1) := by
  have hw : ¬ (s.status = "waiting" ∧ s.players.length = 2) := by
    rcases hst with h | h <;> simp [h]
  unfold tick
  rw [if_neg hw]
  dsimp only
  by_cases hle : s.time_remaining.getD s.current_player 0 - 1 ≤ 0
  · rw [tick_stage_active_forfeit s hst hcur hle]
    rfl
  · rw [tick_stage_active_ok s hst hcur hle]
    show (disconnect_tick _).time_remaining = _
    rw [disconnect_tick_time]

lemma tick_active_forfeit (s : PGameState)
    (hst : s.status = "playing" ∨ s.status = "disconnect_wait")
    (hcur : s.current_player < s.time_remaining.length)
    (hle : s.time_remaining.getD s.current_player 0 - 1 ≤ 0) :
    (tick s).status = "finished" ∧
    (tick s).winner =
      some (s.players.getD ((s.current_player + 1) % s.players.length) "") := by
  have hw : ¬ (s.status = "waiting" ∧ s.players.length = 2) := by
    rcases hst with h | h <;> simp [h]
  unfold tick
  rw [if_neg hw]
  dsimp only
  rw [tick_stage_active_forfeit s hst hcur hle]
  exact ⟨rfl, rfl⟩

lemma tick_first_move_timer (s : PGameState) (t : ℚ)
    (hst : s.status = "first_move") (hft : s.first_move_timer = some t) :
    (tick s).first_move_timer = some (t - 1) := by
  have hw : ¬ (s.status = "waiting" ∧ s.players.length = 2) := by simp [hst]
  unfold tick
  rw [if_neg hw]
  dsimp only
  by_cases hle : t - 1 ≤ 0
  · rw [tick_stage_fm_forfeit s t hst hft hle]
    rfl
  · rw [tick_stage_fm_ok s t hst hft hle]
    show (disconnect_tick _).first_move_timer = _
    rw [disconnect_tick_fmt]

lemma tick_first_move_forfeit (s : PGameState) (t : ℚ)
    (hst : s.status = "first_move") (hft : s.first_move_timer = some t)
    (hle : t - 1 ≤ 0) :
    (tick s).status = "finished" ∧
    (tick s).winner =
      some (s.players.getD ((s.current_player + 1) % s.players.length) "") := by
  have hw : ¬ (s.status = "waiting" ∧ s.players.length = 2) := by simp [hst]
  unfold tick
  rw [if_neg hw]
  dsimp only
  rw [tick_stage_fm_forfeit s t hst hft hle]
  exact ⟨rfl, rfl⟩

lemma tick_playing_step (s : PGameState) (hst : s.status = "playing")
    (hcur : s.current_player < s.time_remaining.length)
    (hdt : s.disconnect_timer = none)
    (hpos : 0 < s.time_remaining.getD s.current_player 0 - 1) :
    tick s = { s with time_remaining :=
      (s.time_remaining.set s.current_player
        (s.time_remaining.getD s.current_player 0 - 1)) } := by
  have hw : ¬ (s.status = "waiting" ∧ s.players.length = 2) := by simp [hst]
  unfold tick
  rw [if_neg hw]
  dsimp only
  rw [tick_stage_active_ok s (Or.inl hst) hcur (by linarith)]
  show disconnect_tick _ = _
  unfold disconnect_tick
  rw [if_neg (by simp [hdt])]

lemma tick_playing_iterate (s : PGameState) (n : ℕ) (hst : s.status = "playing")
    (hcur : s.current_player < s.time_remaining.length)
    (hdt : s.disconnect_timer = none)
    (hclock : (n : ℚ) < s.time_remaining.getD s.current_player 0) :
    tick^[n] s = { s with time_remaining :=
      (s.time_remaining.set s.current_player
        (s.time_remaining.getD s.current_player 0 - n)) } := by
  induction n generalizing s with
  | zero =>
    simp only [Function.iterate_zero, id_eq, Nat.cast_zero, sub_zero]
    rw [set_getD_self _ _ _ hcur]
  | succ n ih =>
    have hpos : 0 < s.time_remaining.getD s.current_player 0 - 1 := by
      push_cast at hclock
      linarith
    rw [Function.iterate_succ_apply, tick_playing_step s hst hcur hdt hpos]
    rw [ih]
    · dsimp only
      rw [List.set_set, getD_set_self _ _ _ _ hcur]
      congr 1
      push_cast
      ring_nf
    · exact hst
    · simpa using hcur
    · exact hdt
    · dsimp only
      rw [getD_set_self _ _ _ _ hcur]
      push_cast at hclock ⊢
      linarith

end Pentago

namespace Tetris

/-! ### Lemmas about line clearing -/

lemma isFullRow_emptyRow : isFullRow emptyRow = false := by decide

/-- Bounds extracted from a successful `_can_place_piece` check: every occupied
shape cell lies on the board. -/
lemma can_place_piece_cell {g : TGrid} {shape : Shape} {x y : ℤ}
    (h : can_place_piece g shape x y = true) (py px : ℕ)
    (hpy : py < shape.length) (hpx : px < (shape.getD py []).length)
    (hocc : (shape.getD py []).getD px 0 ≠ 0) :
    0 ≤ x + (px : ℤ) ∧ x + (px : ℤ) < (BOARD_WIDTH : ℤ) ∧
      0 ≤ y + (py : ℤ) ∧ y + (py : ℤ) < (BOARD_HEIGHT : ℤ) := by
  unfold can_place_piece at h
  have h1 := List.all_eq_true.1 h py (List.mem_range.2 hpy)
  have h2 := List.all_eq_true.1 h1 px (List.mem_range.2 hpx)
  dsimp only at h2
  rw [if_pos hocc] at h2
  rw [Bool.and_eq_true] at h2
  exact of_decide_eq_true h2.1

lemma length_filter_not_add {α : Type} (p : α → Bool) (l : List α) :
    (l.filter p).length + (l.filter (fun a => ! p a)).length = l.length := by
  induction l with
  | nil => rfl
  | cons a l ih =>
    by_cases h : p a <;> simp [List.filter_cons, h] <;> omega

lemma clearLoop_spec (fuel : ℕ) : ∀ (g : TGrid) (y c : ℕ),
    y ≤ g.length →
    ((g.take y).filter isFullRow).length + y ≤ fuel →
    clearLoop fuel g y c =
      (List.replicate ((g.take y).filter isFullRow).length emptyRow ++
        (g.take y).filter (fun r => ! isFullRow r) ++ g.drop y,
       c + ((g.take y).filter isFullRow).length) := by
  induction fuel with
  | zero =>
    intro g y c hy hf
    have hy0 : y = 0 := by omega
    subst hy0
    have hcount : ((g.take 0).filter isFullRow).length = 0 := by simp
    simp [clearLoop]
  | succ fuel ih =>
    intro g y c hy hf
    cases y with
    | zero => simp [clearLoop]
    | succ y =>
      have hylt : y < g.length := by omega
      have hgd : g.getD y [] = g[y] := Pentago.getD_of_lt hylt []
      have htake : g.take (y + 1) = g.take y ++ [g[y]] := by
        rw [List.take_succ, List.getElem?_eq_getElem hylt]
        rfl
      by_cases hfull : isFullRow (g.getD y []) = true
      · -- full row: delete it, insert an empty row on top, keep scanning at y
        have hfull' : isFullRow (g[y]) = true := by rw [← hgd]; exact hfull
        have herase : g.eraseIdx y = g.take y ++ g.drop (y + 1) :=
          List.eraseIdx_eq_take_drop_succ g y
        have hlentake : (g.take y).length = y := by
          rw [List.length_take]
          omega
        have hcnt : ((g.take (y+1)).filter isFullRow).length =
            ((g.take y).filter isFullRow).length + 1 := by
          rw [htake, List.filter_append]
          simp [hfull']
        have hstep : clearLoop (fuel + 1) g (y + 1) c =
            clearLoop fuel (emptyRow :: g.eraseIdx y) (y + 1) (c + 1) := by
          simp only [clearLoop]
          rw [if_pos hfull]
        rw [hstep]
        have hlen' : y + 1 ≤ (emptyRow :: g.eraseIdx y).length := by
          rw [List.length_cons, List.length_eraseIdx_of_lt hylt]
          omega
        have htake' : (emptyRow :: g.eraseIdx y).take (y + 1) = emptyRow :: g.take y := by
          rw [List.take_succ_cons, herase, List.take_left' hlentake]
        have hdrop' : (emptyRow :: g.eraseIdx y).drop (y + 1) = g.drop (y + 1) := by
          rw [List.drop_succ_cons, herase, List.drop_left' hlentake]
        have hcnt' : (((emptyRow :: g.eraseIdx y).take (y+1)).filter isFullRow).length =
            ((g.take y).filter isFullRow).length := by
          rw [htake', List.filter_cons, isFullRow_emptyRow]
          simp
        rw [ih (emptyRow :: g.eraseIdx y) (y + 1) (c + 1) hlen' (by omega)]
        rw [hcnt', htake', hdrop', hcnt, htake]
        refine Prod.ext ?_ ?_
        · show _ = (List.replicate (((g.take y).filter isFullRow).length + 1) emptyRow ++
            ((g.take y ++ [g[y]]).filter (fun r => ! isFullRow r)) ++ g.drop (y+1))
          rw [List.filter_cons, isFullRow_emptyRow, List.filter_append,
            List.replicate_succ']
          simp [hfull']
        · show c + 1 + ((g.take y).filter isFullRow).length =
            c + (((g.take y).filter isFullRow).length + 1)
          omega
      · -- non-full row: move the cursor up
        have hfull' : isFullRow (g[y]) = false := by
          rw [← hgd]
          exact Bool.not_eq_true _ ▸ (by simpa using hfull)
        have hcnt : ((g.take (y+1)).filter isFullRow).length =
            ((g.take y).filter isFullRow).length := by
          rw [htake, List.filter_append]
          simp [hfull']
        have hstep : clearLoop (fuel + 1) g (y + 1) c = clearLoop fuel g y c := by
          simp only [clearLoop]
          rw [if_neg hfull]
        rw [hstep, ih g y c (by omega) (by omega), hcnt]
        have hdrop : g.drop y = g[y] :: g.drop (y + 1) :=
          List.drop_eq_getElem_cons hylt
        refine Prod.ext ?_ rfl
        show _ ++ (g.take y).filter (fun r => ! isFullRow r) ++ g.drop y = _
        rw [hdrop, htake, List.filter_append]
        simp [hfull']
  
lemma clear_full_lines_spec (g : TGrid) :
    clear_full_lines g =
      (List.replicate ((g.filter isFullRow).length) emptyRow ++
        g.filter (fun r => ! isFullRow r),
       (g.filter isFullRow).length) := by
  unfold clear_full_lines
  have hle : (g.filter isFullRow).length ≤ g.length := List.length_filter_le _ _
  rw [clearLoop_spec _ g g.length 0 le_rfl (by rw [List.take_length]; omega)]
  rw [List.take_length, List.drop_length]
  simp

end Tetris

namespace Matchmaking

/-! ### Lemmas about the pairing scan -/

lemma findMinGap_nil (acc : Option (ℚ × ℕ)) : findMinGap [] acc = acc := rfl

lemma findMinGap_ne_none (l : List (ℚ × ℕ)) (d0 : ℚ × ℕ) :
    findMinGap l (some d0) ≠ none := by
  induction l generalizing d0 with
  | nil => simp [findMinGap]
  | cons p rest ih =>
    obtain ⟨d, i⟩ := p
    dsimp only [findMinGap]
    by_cases h : d < d0.1
    · rw [if_pos h]
      exact ih _
    · rw [if_neg h]
      exact ih _

lemma findMinGap_none_iff (l : List (ℚ × ℕ)) :
    findMinGap l none = none ↔ l = [] := by
  constructor
  · intro h
    cases l with
    | nil => rfl
    | cons p rest =>
      obtain ⟨d, i⟩ := p
      dsimp only [findMinGap] at h
      exact absurd h (findMinGap_ne_none _ _)
  · rintro rfl
    rfl

lemma findMinGap_mem : ∀ (l : List (ℚ × ℕ)) (acc : Option (ℚ × ℕ)) (d : ℚ × ℕ),
    findMinGap l acc = some d → d ∈ l ∨ acc = some d := by
  intro l
  induction l with
  | nil => intro acc d h; exact Or.inr h
  | cons p rest ih =>
    obtain ⟨dd, i⟩ := p
    intro acc d h
    rcases acc with _ | d0
    · dsimp only [findMinGap] at h
      rcases ih (some (dd, i)) d h with hmem | heq
      · exact Or.inl (List.mem_cons_of_mem _ hmem)
      · injection heq with heq
        exact Or.inl (heq ▸ List.mem_cons_self _ _)
    · dsimp only [findMinGap] at h
      by_cases hlt : dd < d0.1
      · rw [if_pos hlt] at h
        rcases ih (some (dd, i)) d h with hmem | heq
        · exact Or.inl (List.mem_cons_of_mem _ hmem)
        · injection heq with heq
          exact Or.inl (heq ▸ List.mem_cons_self _ _)
      · rw [if_neg hlt] at h
        rcases ih (some d0) d h with hmem | heq
        · exact Or.inl (List.mem_cons_of_mem _ hmem)
        · exact Or.inr heq

lemma findMinGap_le : ∀ (l : List (ℚ × ℕ)) (acc : Option (ℚ × ℕ)) (di : ℚ × ℕ),
    findMinGap l acc = some di →
    (∀ p ∈ l, di.1 ≤ p.1) ∧ (∀ d0, acc = some d0 → di.1 ≤ d0.1) := by
  intro l
  induction l with
  | nil =>
    intro acc di h
    refine ⟨by simp, fun d0 h0 => ?_⟩
    rw [findMinGap_nil, h0] at h
    injection h with h
    rw [h]
  | cons p rest ih =>
    obtain ⟨d, i⟩ := p
    intro acc di h
    rcases acc with _ | d0
    · dsimp only [findMinGap] at h
      have IH := ih (some (d, i)) di h
      refine ⟨fun p hp => ?_, fun d0 h0 => Option.noConfusion h0⟩
      rcases List.mem_cons.1 hp with rfl | hp
      · exact IH.2 (d, i) rfl
      · exact IH.1 p hp
    · dsimp only [findMinGap] at h
      by_cases hlt : d < d0.1
      · rw [if_pos hlt] at h
        have IH := ih (some (d, i)) di h
        refine ⟨fun p hp => ?_, fun d1 h1 => ?_⟩
        · rcases List.mem_cons.1 hp with rfl | hp
          · exact IH.2 (d, i) rfl
          · exact IH.1 p hp
        · injection h1 with h1
          subst h1
          exact le_trans (IH.2 (d, i) rfl) (le_of_lt hlt)
      · rw [if_neg hlt] at h
        have IH := ih (some d0) di h
        refine ⟨fun p hp => ?_, fun d1 h1 => ?_⟩
        · rcases List.mem_cons.1 hp with rfl | hp
          · exact le_trans (IH.2 d0 rfl) (not_lt.1 hlt)
          · exact IH.1 p hp
        · injection h1 with h1
          subst h1
          exact IH.2 d0 rfl

lemma gapList_mem_iff (pool : List Entry) (d : ℚ) (i : ℕ) :
    (d, i) ∈ gapList pool ↔
      i + 1 < pool.length ∧
      d = |(pool.getD i default).rating - (pool.getD (i+1) default).rating| := by
  unfold gapList
  rw [List.mem_map]
  constructor
  · rintro ⟨j, hj, hpair⟩
    have hj' := List.mem_range.1 hj
    injection hpair with h1 h2
    subst h2
    exact ⟨by omega, h1.symm⟩
  · rintro ⟨hi, rfl⟩
    exact ⟨i, List.mem_range.2 (by omega), rfl⟩

lemma gapList_length (pool : List Entry) : (gapList pool).length = pool.length - 1 := by
  simp [gapList]

lemma sorted_adjacent {pool : List Entry} (h : pool.Chain' poolLE) (j : ℕ)
    (hj : j + 1 < pool.length) :
    (pool.getD j default).rating ≤ (pool.getD (j+1) default).rating := by
  have hle := List.chain'_iff_get.1 h j (by omega)
  have e1 : pool.getD j default = pool.get ⟨j, by omega⟩ := by
    rw [List.get_eq_getElem]
    exact Pentago.getD_of_lt (by omega) default
  have e2 : pool.getD (j+1) default = pool.get ⟨j+1, by omega⟩ := by
    rw [List.get_eq_getElem]
    exact Pentago.getD_of_lt (by omega) default
  rw [e1, e2]
  rcases hle with hlt | ⟨heq, _⟩
  · exact le_of_lt hlt
  · exact le_of_eq heq

lemma sorted_gap_eq {pool : List Entry} (h : pool.Chain' poolLE) (j : ℕ)
    (hj : j + 1 < pool.length) :
    |(pool.getD j default).rating - (pool.getD (j+1) default).rating| =
      (pool.getD (j+1) default).rating - (pool.getD j default).rating := by
  have := sorted_adjacent h j hj
  rw [abs_of_nonpos (by linarith), neg_sub]

lemma filter_pair_removal {l1 l2 : List Entry} {a b : Entry}
    (hnd : (l1 ++ a :: b :: l2).Nodup) :
    (l1 ++ a :: b :: l2).filter (fun p => ¬ (p = a ∨ p = b)) = l1 ++ l2 := by
  rw [List.nodup_append] at hnd
  obtain ⟨h1, h2, hdisj⟩ := hnd
  rw [List.nodup_cons] at h2
  obtain ⟨hab2, h2⟩ := h2
  rw [List.nodup_cons] at h2
  obtain ⟨hb2, -⟩ := h2
  have ha2 : a ∉ l2 := fun hmem => hab2 (List.mem_cons_of_mem _ hmem)
  have hab : a ≠ b := fun e => hab2 (e ▸ List.mem_cons_self _ _)
  rw [List.filter_append]
  have e1 : l1.filter (fun p => ¬ (p = a ∨ p = b)) = l1 := by
    rw [List.filter_eq_self]
    intro p hp
    have hpa : p ≠ a := fun e => hdisj hp (by simp [e])
    have hpb : p ≠ b := fun e => hdisj hp (by simp [e])
    simp [hpa, hpb]
  have e2 : (a :: b :: l2).filter (fun p => ¬ (p = a ∨ p = b)) = l2 := by
    rw [List.filter_cons, List.filter_cons]
    have ca : (decide ¬ (a = a ∨ a = b)) = false := by simp
    have cb : (decide ¬ (b = a ∨ b = b)) = false := by simp
    rw [ca, cb]
    simp only [Bool.false_eq_true, if_false]
    rw [List.filter_eq_self]
    intro p hp
    have hpa : p ≠ a := fun e => ha2 (e ▸ hp)
    have hpb : p ≠ b := fun e => hb2 (e ▸ hp)
    simp [hpa, hpb]
  rw [e1, e2]

end Matchmaking

/-! ### Claim C5 -/

/-- C5: for every well-formed 8×8 rotating-board grid, `check_winner` reports a
winner exactly when some row, column, main diagonal or anti-diagonal holds four
consecutive cells with the same non-empty mark — the anti-diagonal clause of
`hasFour` is parameterised by the window's rightmost column `c ∈ [3, 8)`, so
windows ending at the board's right edge (`c = 7`) are included — and any
reported winner actually owns such a line, so no winner is ever reported on a
board without one. -/
theorem C5_check_winner_iff_line_of_four (g : Pentago.Grid) (hwf : Pentago.WFGrid g) :
    ((Pentago.check_winner g).isSome ↔ ∃ v, Pentago.hasFour g v) ∧
    (∀ v, Pentago.check_winner g = some v → Pentago.hasFour g v) := by
  constructor
  · constructor
    · intro hs
      obtain ⟨v, hv⟩ := Option.isSome_iff_exists.1 hs
      exact ⟨v, Pentago.check_winner_eq_some_hasFour hwf hv⟩
    · rintro ⟨v, hv⟩
      by_contra hn
      exact Pentago.not_hasFour_of_check_winner_eq_none hwf
        (Option.not_isSome_iff_eq_none.1 hn) v hv
  · exact fun v => Pentago.check_winner_eq_some_hasFour hwf

/-- Witness for C5 at a concrete board: a grid whose only line of four lies on
the anti-diagonal ending at the right edge. -/
theorem C5_check_winner_iff_line_of_four_witness :
    Pentago.WFGrid Fixtures.antiEdgeGrid ∧
    ((Pentago.check_winner Fixtures.antiEdgeGrid).isSome ↔
      ∃ v, Pentago.hasFour Fixtures.antiEdgeGrid v) :=
  ⟨by decide, (C5_check_winner_iff_line_of_four Fixtures.antiEdgeGrid (by decide)).1⟩

/-! ### Claim C10 -/

/-- C10 (refuted — code bug): at board level a blocked `left`/`right` shift or
`rotate` is indeed a silent no-op — `TetrisBoard.move_falling_piece` returns
the board unchanged, piece and grid included — but `TetrisGame.process_move`
never reports the move valid: its `GameState` copy omits the required
`chat_history` field and raises `TypeError` on every call, so `(state, True)`
is never returned to the mover.  The second half of the claim is therefore
false of the program.  The blocked `O` against the left wall
(`Fixtures.blockedState`) instantiates the no-op hypothesis. -/
theorem C10_blocked_shift_noop_never_reported :
    (∀ (bs : Tetris.TBoard) (piece : Tetris.FallingPiece) (d np : String),
      bs.falling_piece = some piece →
      d = "left" ∨ d = "right" ∨ d = "rotate" →
      Tetris.can_place_falling_piece bs.grid (Tetris.shiftedPiece piece d) = false →
      Tetris.move_falling_piece bs np d = bs) ∧
    Tetris.can_place_falling_piece Fixtures.blockedState.board_state.grid
      (Tetris.shiftedPiece { type := "O", x := -1, y := 0, rotation := 0 } "left") = false ∧
    (∀ (s : Tetris.TGameState) (m : Tetris.TMove) (p : ℕ) (np : String),
      Tetris.process_move s m p np = .error .typeError) := by
  refine ⟨?_, by decide, fun s m p np => rfl⟩
  intro bs piece d np hpiece hd hblocked
  rcases hd with rfl | rfl | rfl <;>
    simp [Tetris.move_falling_piece, hpiece, hblocked]

/-! ### Claim C3 -/

/-- C3 (amended): for the rotating-board game, off-turn moves and moves the
rule engine rejects (with the compared payload fields present) are reported
invalid, returning the copy the source builds — board, clocks, turn, phase
and move log all equal to the input's, but with the first-move sub-timer
fields reset to `None` by the copy's constructor call; a payload missing `x`
(or, with the earlier fields passing, `y` or `quadrant`) raises `TypeError`
from the chained comparison instead.  For the falling-piece game *every*
`process_move` call raises `TypeError`: its state copy omits the required
`chat_history` field. -/
theorem C3_rejection_behaviour :
    (∀ (s : Pentago.PGameState) (m : Pentago.PMove) (p : ℕ),
        p ≠ s.current_player →
        Pentago.process_move s m p = .ok (Pentago.copy_state s, false)) ∧
    (∀ (s : Pentago.PGameState) (m : Pentago.PMove),
        Pentago.is_valid_move s.board_grid m = .ok false →
        Pentago.process_move s m s.current_player = .ok (Pentago.copy_state s, false)) ∧
    (∀ (s : Pentago.PGameState) (m : Pentago.PMove),
        m.x = none → Pentago.process_move s m s.current_player = .error .typeError) ∧
    (∀ (s : Pentago.PGameState) (m : Pentago.PMove) (x : ℤ),
        m.x = some x → 0 ≤ x → x < 8 → m.y = none →
        Pentago.process_move s m s.current_player = .error .typeError) ∧
    (∀ (s : Pentago.PGameState) (m : Pentago.PMove) (x y : ℤ),
        m.x = some x → 0 ≤ x → x < 8 → m.y = some y → 0 ≤ y → y < 8 →
        Pentago.cellAt s.board_grid y.toNat x.toNat = none → m.quadrant = none →
        Pentago.process_move s m s.current_player = .error .typeError) ∧
    (∀ s : Pentago.PGameState,
        (Pentago.copy_state s).board_grid = s.board_grid ∧
        (Pentago.copy_state s).time_remaining = s.time_remaining ∧
        (Pentago.copy_state s).current_player = s.current_player ∧
        (Pentago.copy_state s).status = s.status ∧
        (Pentago.copy_state s).moves_history = s.moves_history ∧
        (Pentago.copy_state s).first_move_timer = none ∧
        (Pentago.copy_state s).first_move_player = none) ∧
    (∀ (s : Tetris.TGameState) (m : Tetris.TMove) (p : ℕ) (np : String),
        Tetris.process_move s m p np = .error .typeError) := by
  refine ⟨?_, ?_, ?_, ?_, ?_, ?_, ?_⟩
  · intro s m p hp
    simp [Pentago.process_move, Pentago.process_move_on_copy, Pentago.copy_state, hp]
  · intro s m hv
    simp [Pentago.process_move, Pentago.process_move_on_copy, Pentago.copy_state, hv]
  · intro s m hx
    have hv : Pentago.is_valid_move s.board_grid m = .error .typeError := by
      simp [Pentago.is_valid_move, hx]
    simp [Pentago.process_move, Pentago.process_move_on_copy, Pentago.copy_state, hv]
  · intro s m x hx hx0 hx8 hy
    have hv : Pentago.is_valid_move s.board_grid m = .error .typeError := by
      simp [Pentago.is_valid_move, hx, hy, hx0, hx8]
    simp [Pentago.process_move, Pentago.process_move_on_copy, Pentago.copy_state, hv]
  · intro s m x y hx hx0 hx8 hy hy0 hy8 hcell hq
    have hv : Pentago.is_valid_move s.board_grid m = .error .typeError := by
      simp [Pentago.is_valid_move, hx, hy, hx0, hx8, hy0, hy8, hcell, hq]
    simp [Pentago.process_move, Pentago.process_move_on_copy, Pentago.copy_state, hv]
  · exact fun s => ⟨rfl, rfl, rfl, rfl, rfl, rfl, rfl⟩
  · exact fun s m p np => rfl

/-- C3 counterexample: on the concrete session `pState` with slot 0 on turn, a
move payload that omits `x` (all other fields present and well-formed) makes
`process_move` raise `TypeError` — it does not return invalid-without-mutation
as the claim states. -/
theorem C3_missing_field_raises :
    Pentago.process_move Fixtures.pState
      { x := none, y := some 0, quadrant := some 0, direction := some "clockwise" } 0 =
      .error .typeError := by
  exact (C3_rejection_behaviour).2.2.1 Fixtures.pState _ rfl

/-- Witness for C3 (amended) at concrete inputs: an out-of-bounds
rotating-board move returns the (here unchanged, since its first-move fields
are already `None`) state with `False`, and a falling-piece call raises
`TypeError`. -/
theorem C3_rejection_behaviour_witness :
    Pentago.process_move Fixtures.pState
      { x := some 9, y := some 0, quadrant := some 0, direction := some "clockwise" } 0 =
      .ok (Fixtures.pState, false) ∧
    Tetris.process_move Fixtures.blockedState { action := none, direction := none } 0 "T" =
      .error .typeError := by
  constructor
  · exact (C3_rejection_behaviour).2.1 Fixtures.pState
      { x := some 9, y := some 0, quadrant := some 0, direction := some "clockwise" } (by rfl)
  · exact (C3_rejection_behaviour).2.2.2.2.2.2 Fixtures.blockedState
      { action := none, direction := none } 0 "T"

/-! ### Claim C8 -/

/-- The effects of a valid move as computed by the post-copy logic
(`process_move_on_copy`); applied to the copied state by the C8 theorem. -/
lemma process_move_on_copy_effects (s : Pentago.PGameState) (m : Pentago.PMove)
    (hv : Pentago.is_valid_move s.board_grid m = .ok true)
    (hp2 : s.players.length = 2) (hcur : s.current_player < 2)
    (hlen : s.time_remaining.length = 2) (hst : s.status ≠ "finished") :
    ∃ s', Pentago.process_move_on_copy s m s.current_player = .ok (s', true) ∧
      s'.time_remaining.getD s.current_player 0 =
        s.time_remaining.getD s.current_player 0 + s.increment ∧
      (∀ j, j ≠ s.current_player →
        s'.time_remaining.getD j 0 = s.time_remaining.getD j 0) ∧
      s'.moves_history = s.moves_history ++
        [{ player_id := s.current_player, move_data := m,
           board_state_after := s'.board_grid,
           time_remaining_after := s'.time_remaining }] ∧
      (∀ w, Pentago.check_winner s'.board_grid = some w →
        s'.status = "finished" ∧ s'.current_player = s.current_player ∧
        s'.winner = some (s.players.getD w "")) ∧
      (Pentago.check_winner s'.board_grid = none → Pentago.is_draw s'.board_grid = true →
        s'.status = "finished" ∧ s'.current_player = s.current_player) ∧
      (Pentago.check_winner s'.board_grid = none → Pentago.is_draw s'.board_grid = false →
        s'.current_player = (s.current_player + 1) % 2) := by
  have hclk : s.current_player < s.time_remaining.length := by omega
  unfold Pentago.process_move_on_copy
  rw [if_neg (by simp : ¬ (s.current_player ≠ s.current_player)), hv]
  dsimp only
  generalize hMID : Pentago.first_move_update
      { status := s.status, players := s.players, current_player := s.current_player,
        board_grid := Pentago.apply_move s.board_grid m s.current_player,
        time_remaining :=
          s.time_remaining.set s.current_player
            (s.time_remaining.getD s.current_player 0 + s.increment),
        winner := s.winner,
        moves_history :=
          s.moves_history ++
            [{ player_id := s.current_player, move_data := m,
                board_state_after := Pentago.apply_move s.board_grid m s.current_player,
                time_remaining_after :=
                  s.time_remaining.set s.current_player
                    (s.time_remaining.getD s.current_player 0 + s.increment) }],
        increment := s.increment, first_move_timer := s.first_move_timer,
        first_move_player := s.first_move_player, disconnect_timer := s.disconnect_timer,
        disconnected_player := s.disconnected_player } = MID
  have hb : MID.board_grid = Pentago.apply_move s.board_grid m s.current_player := by
    rw [← hMID, Pentago.first_move_update_board]
  have ht : MID.time_remaining =
      s.time_remaining.set s.current_player
        (s.time_remaining.getD s.current_player 0 + s.increment) := by
    rw [← hMID, Pentago.first_move_update_time]
  have hh : MID.moves_history =
      s.moves_history ++
        [{ player_id := s.current_player, move_data := m,
            board_state_after := Pentago.apply_move s.board_grid m s.current_player,
            time_remaining_after :=
              s.time_remaining.set s.current_player
                (s.time_remaining.getD s.current_player 0 + s.increment) }] := by
    rw [← hMID, Pentago.first_move_update_history]
  have hc : MID.current_player = s.current_player := by
    rw [← hMID, Pentago.first_move_update_current]
  have hpl : MID.players = s.players := by
    rw [← hMID, Pentago.first_move_update_players]
  have hstM : MID.status ≠ "finished" := by
    rw [← hMID]
    exact Pentago.first_move_update_status_ne _ hst
  rw [hb]
  rcases hW : Pentago.check_winner (Pentago.apply_move s.board_grid m s.current_player)
    with _ | w
  · simp only [hW]
    cases hD : Pentago.is_draw (Pentago.apply_move s.board_grid m s.current_player)
    · -- no winner, no draw: the turn flips
      simp only [hD, Bool.false_eq_true, if_false]
      refine ⟨_, rfl, ?_, ?_, ?_, ?_, ?_, ?_⟩
      · show MID.time_remaining.getD s.current_player 0 = _
        rw [ht]
        exact getD_set_self _ _ _ _ hclk
      · intro j hj
        show MID.time_remaining.getD j 0 = _
        rw [ht]
        exact getD_set_ne _ _ _ hj
      · show MID.moves_history = _
        simp only [hh, hb, ht]
      · intro w hw
        dsimp only at hw
        rw [hW] at hw
        exact Option.noConfusion hw
      · intro _ hd
        dsimp only at hd
        rw [hD] at hd
        exact Bool.noConfusion hd
      · intro _ _
        show (if MID.status ≠ "finished" then (MID.current_player + 1) % MID.players.length
          else MID.current_player) = _
        rw [if_pos hstM, hc, hpl, hp2]
    · -- draw
      simp only [hD, if_true]
      refine ⟨_, rfl, ?_, ?_, ?_, ?_, ?_, ?_⟩
      · show MID.time_remaining.getD s.current_player 0 = _
        rw [ht]
        exact getD_set_self _ _ _ _ hclk
      · intro j hj
        show MID.time_remaining.getD j 0 = _
        rw [ht]
        exact getD_set_ne _ _ _ hj
      · show MID.moves_history = _
        simp only [hh, hb, ht]
      · intro w hw
        dsimp only at hw
        rw [hW] at hw
        exact Option.noConfusion hw
      · exact fun _ _ => ⟨rfl, hc⟩
      · intro _ hd
        dsimp only at hd
        rw [hD] at hd
        exact Bool.noConfusion hd
  · -- winner
    simp only [hW]
    refine ⟨_, rfl, ?_, ?_, ?_, ?_, ?_, ?_⟩
    · show MID.time_remaining.getD s.current_player 0 = _
      rw [ht]
      exact getD_set_self _ _ _ _ hclk
    · intro j hj
      show MID.time_remaining.getD j 0 = _
      rw [ht]
      exact getD_set_ne _ _ _ hj
    · show MID.moves_history = _
      simp only [hh, hb, ht]
    · intro w' hw'
      refine ⟨rfl, hc, ?_⟩
      show some (MID.players.getD w "") = _
      dsimp only at hw'
      rw [hW] at hw'
      injection hw' with hw'
      subst hw'
      rw [hpl]
    · intro hn
      dsimp only at hn
      rw [hW] at hn
      exact Option.noConfusion hn
    · intro hn
      dsimp only at hn
      rw [hW] at hn
      exact Option.noConfusion hn

/-- C8: a valid rotating-board move credits exactly the configured increment to
the acting slot's clock and leaves the other slot's clock unchanged, appends
exactly one move-log entry carrying the resulting board snapshot and resulting
clocks, and — when the new board shows neither a winner nor a draw — flips the
turn to the other slot; on a winning or drawing move the phase becomes
`finished` and the turn does not advance.  (The state copy `process_move`
builds first resets only the first-move sub-timer fields, which none of these
conclusions mention.) -/
theorem C8_valid_move_effects (s : Pentago.PGameState) (m : Pentago.PMove)
    (hv : Pentago.is_valid_move s.board_grid m = .ok true)
    (hp2 : s.players.length = 2) (hcur : s.current_player < 2)
    (hlen : s.time_remaining.length = 2) (hst : s.status ≠ "finished") :
    ∃ s', Pentago.process_move s m s.current_player = .ok (s', true) ∧
      s'.time_remaining.getD s.current_player 0 =
        s.time_remaining.getD s.current_player 0 + s.increment ∧
      (∀ j, j ≠ s.current_player →
        s'.time_remaining.getD j 0 = s.time_remaining.getD j 0) ∧
      s'.moves_history = s.moves_history ++
        [{ player_id := s.current_player, move_data := m,
           board_state_after := s'.board_grid,
           time_remaining_after := s'.time_remaining }] ∧
      (∀ w, Pentago.check_winner s'.board_grid = some w →
        s'.status = "finished" ∧ s'.current_player = s.current_player ∧
        s'.winner = some (s.players.getD w "")) ∧
      (Pentago.check_winner s'.board_grid = none → Pentago.is_draw s'.board_grid = true →
        s'.status = "finished" ∧ s'.current_player = s.current_player) ∧
      (Pentago.check_winner s'.board_grid = none → Pentago.is_draw s'.board_grid = false →
        s'.current_player = (s.current_player + 1) % 2) :=
  process_move_on_copy_effects (Pentago.copy_state s) m hv hp2 hcur hlen hst

/-- Witness for C8: a valid first placement on a fresh session credits the
3-second increment to slot 0's clock. -/
theorem C8_valid_move_effects_witness :
    Pentago.is_valid_move Fixtures.pState.board_grid
      { x := some 0, y := some 0, quadrant := some 0, direction := some "clockwise" } =
      .ok true ∧
    ∃ s', Pentago.process_move Fixtures.pState
        { x := some 0, y := some 0, quadrant := some 0, direction := some "clockwise" } 0 =
        .ok (s', true) ∧ s'.time_remaining.getD 0 0 = 300 + 3 := by
  refine ⟨by rfl, ?_⟩
  obtain ⟨s', h1, h2, -, -, -, -⟩ := C8_valid_move_effects Fixtures.pState
    { x := some 0, y := some 0, quadrant := some 0, direction := some "clockwise" }
    (by rfl) (by decide) (by decide) (by decide) (by decide)
  refine ⟨s', h1, ?_⟩
  rw [show (0 : ℕ) = Fixtures.pState.current_player from rfl, h2]
  norm_num [Fixtures.pState]

/-! ### Claim C7 -/

/-- C7: for a rotating-board session, in phase `playing` or `disconnect_wait`
each scheduler tick decreases the on-turn slot's clock by exactly 1 second,
leaves the off-turn slot's clock unchanged, and finishes the session with the
opponent as winner when that clock reaches 0 or below; in phase `first_move`
the tick decrements the 30-second sub-timer instead, with the same forfeit on
expiry; and in `playing` with no pending disconnect, 10 move-free ticks reduce
the on-turn clock by exactly 10 seconds and change nothing else. -/
theorem C7_tick_clock_discipline :
    (∀ s : Pentago.PGameState,
      (s.status = "playing" ∨ s.status = "disconnect_wait") →
      s.players.length = 2 → s.current_player < 2 → s.time_remaining.length = 2 →
      (Pentago.tick s).time_remaining.getD s.current_player 0 =
        s.time_remaining.getD s.current_player 0 - 1 ∧
      (∀ j, j ≠ s.current_player →
        (Pentago.tick s).time_remaining.getD j 0 = s.time_remaining.getD j 0) ∧
      (s.time_remaining.getD s.current_player 0 - 1 ≤ 0 →
        (Pentago.tick s).status = "finished" ∧
        (Pentago.tick s).winner =
          some (s.players.getD ((s.current_player + 1) % 2) ""))) ∧
    (∀ (s : Pentago.PGameState) (t : ℚ),
      s.status = "first_move" → s.first_move_timer = some t →
      (Pentago.tick s).first_move_timer = some (t - 1) ∧
      (t - 1 ≤ 0 →
        (Pentago.tick s).status = "finished" ∧
        (Pentago.tick s).winner =
          some (s.players.getD ((s.current_player + 1) % s.players.length) ""))) ∧
    (∀ s : Pentago.PGameState,
      s.status = "playing" → s.current_player < s.time_remaining.length →
      s.disconnect_timer = none →
      (10 : ℚ) < s.time_remaining.getD s.current_player 0 →
      (Pentago.tick^[10] s).time_remaining.getD s.current_player 0 =
        s.time_remaining.getD s.current_player 0 - 10 ∧
      (∀ j, j ≠ s.current_player →
        (Pentago.tick^[10] s).time_remaining.getD j 0 = s.time_remaining.getD j 0) ∧
      (Pentago.tick^[10] s).status = "playing" ∧
      (Pentago.tick^[10] s).current_player = s.current_player) := by
  refine ⟨?_, ?_, ?_⟩
  · intro s hst hp2 hcur hlen
    have hcl : s.current_player < s.time_remaining.length := by omega
    have htime := Pentago.tick_active_time s hst hcl
    refine ⟨?_, fun j hj => ?_, fun hle => ?_⟩
    · rw [htime]
      exact getD_set_self _ _ _ _ hcl
    · rw [htime]
      exact getD_set_ne _ _ _ hj
    · have hres := Pentago.tick_active_forfeit s hst hcl hle
      rw [hp2] at hres
      exact hres
  · intro s t hst hft
    exact ⟨Pentago.tick_first_move_timer s t hst hft,
      fun hle => Pentago.tick_first_move_forfeit s t hst hft hle⟩
  · intro s hst hcur hdt hclock
    rw [Pentago.tick_playing_iterate s 10 hst hcur hdt (by push_cast; linarith)]
    refine ⟨?_, fun j hj => ?_, hst, rfl⟩
    · show (s.time_remaining.set _ _).getD _ 0 = _
      rw [getD_set_self _ _ _ _ hcur]
      norm_num
    · show (s.time_remaining.set _ _).getD _ 0 = _
      rw [getD_set_ne _ _ _ hj]

/-! ### Claim C9 -/

/-- C9: locking a piece clears exactly the fully-occupied rows (the bottom-up
scan removes them and inserts one empty row at the top per cleared row, so the
row count is conserved and rows above each cleared row shift down by one —
the resulting grid is the cleared-row count of empty rows on top of the
non-full rows in their original order); scoring pays
`[0,40,100,300,1200][min(lines_cleared,4)]`, `apply_move` credits exactly that
to the acting player, and completing a single row yields `lines_cleared = 1`. -/
theorem C9_line_clear_and_scoring :
    (∀ g : Tetris.TGrid,
      Tetris.clear_full_lines g =
        (List.replicate ((g.filter Tetris.isFullRow).length) Tetris.emptyRow ++
          g.filter (fun r => ! Tetris.isFullRow r),
         (g.filter Tetris.isFullRow).length) ∧
      (Tetris.clear_full_lines g).1.length = g.length ∧
      ((g.filter Tetris.isFullRow).length = 1 → (Tetris.clear_full_lines g).2 = 1)) ∧
    (∀ n : ℕ,
      Tetris.calculate_score n = ([0, 40, 100, 300, 1200] : List ℤ).getD (min n 4) 0) ∧
    (∀ (bs : Tetris.TBoard) (t : String) (rot : ℕ) (x y : ℤ) (pid : ℕ),
      pid < bs.scores.length →
      (Tetris.apply_move bs t rot x y pid).grid =
        (Tetris.clear_full_lines
          (Tetris.stampShape bs.grid ((Tetris.PIECES t).getD rot []) x y (pid + 1))).1 ∧
      (Tetris.apply_move bs t rot x y pid).scores.getD pid 0 =
        bs.scores.getD pid 0 +
          Tetris.calculate_score
            (Tetris.clear_full_lines
              (Tetris.stampShape bs.grid ((Tetris.PIECES t).getD rot []) x y (pid + 1))).2) := by
  refine ⟨fun g => ⟨Tetris.clear_full_lines_spec g, ?_, ?_⟩, fun n => rfl, ?_⟩
  · rw [Tetris.clear_full_lines_spec g]
    show (List.replicate _ _ ++ _).length = _
    rw [List.length_append, List.length_replicate]
    exact Tetris.length_filter_not_add Tetris.isFullRow g
  · intro h
    rw [Tetris.clear_full_lines_spec g]
    exact h
  · intro bs t rot x y pid hpid
    exact ⟨rfl, getD_set_self _ _ _ _ hpid⟩

/-- Witness for C9: a grid whose bottom row alone is full clears exactly one
line, and one cleared line scores 40 points. -/
theorem C9_line_clear_and_scoring_witness :
    (Fixtures.c9grid.filter Tetris.isFullRow).length = 1 ∧
    (Tetris.clear_full_lines Fixtures.c9grid).2 = 1 ∧
    Tetris.calculate_score 1 = 40 := by
  have h1 : (Fixtures.c9grid.filter Tetris.isFullRow).length = 1 := by decide
  refine ⟨h1, ((C9_line_clear_and_scoring).1 Fixtures.c9grid).2.2 h1, ?_⟩
  rw [(C9_line_clear_and_scoring).2.1 1]
  decide

/-! ### Claim C6 -/

/-- C6: on a rating-sorted, duplicate-free pool, one `try_match` pass selects
an *adjacent* pair whose rating gap is minimal over all adjacent pairs, pairs
it exactly when that gap is at most 150 points, and removes precisely those
two entries, leaving every other entry (and their order) unchanged; with fewer
than two entries or a minimal gap above 150 nothing is paired. -/
theorem C6_pairing_pass (pool : List Matchmaking.Entry)
    (hsorted : pool.Chain' Matchmaking.poolLE) (hnodup : pool.Nodup) :
    (∀ a b rest, Matchmaking.try_match pool = some ((a, b), rest) →
      (∃ l1 l2, pool = l1 ++ a :: b :: l2 ∧ rest = l1 ++ l2) ∧
      b.rating - a.rating ≤ 150 ∧
      (∀ j, j + 1 < pool.length →
        b.rating - a.rating ≤
          (pool.getD (j+1) default).rating - (pool.getD j default).rating)) ∧
    (Matchmaking.try_match pool = none ↔ pool.length < 2 ∨
      (∀ j, j + 1 < pool.length →
        150 < (pool.getD (j+1) default).rating - (pool.getD j default).rating)) := by
  constructor
  · intro a b rest h
    unfold Matchmaking.try_match at h
    by_cases hlen : pool.length < 2
    · rw [if_pos hlen] at h
      exact absurd h (by simp)
    rw [if_neg hlen] at h
    rcases hmg : Matchmaking.findMinGap (Matchmaking.gapList pool) none with _ | di
    · rw [hmg] at h
      exact absurd h (by simp)
    rw [hmg] at h
    dsimp only at h
    by_cases h150 : di.1 ≤ 150
    swap
    · rw [if_neg h150] at h
      exact absurd h (by simp)
    rw [if_pos h150] at h
    injection h with h
    injection h with hpair hrest
    injection hpair with hA hB
    have hmem : di ∈ Matchmaking.gapList pool := by
      rcases Matchmaking.findMinGap_mem _ _ _ hmg with hm | he
      · exact hm
      · exact absurd he (by simp)
    obtain ⟨hi, hd⟩ := (Matchmaking.gapList_mem_iff pool di.1 di.2).1 (by
      rw [← Prod.mk.eta (p := di)] at hmem
      exact hmem)
    have hdab : di.1 = b.rating - a.rating := by
      rw [hd, Matchmaking.sorted_gap_eq hsorted di.2 hi, ← hA, ← hB]
    have hilt : di.2 < pool.length := by omega
    have hilt1 : di.2 + 1 < pool.length := hi
    have hA' : a = pool[di.2] := by
      rw [← hA]
      exact Pentago.getD_of_lt hilt default
    have hB' : b = pool[di.2 + 1] := by
      rw [← hB]
      exact Pentago.getD_of_lt hilt1 default
    have hdec : pool = pool.take di.2 ++ a :: b :: pool.drop (di.2 + 2) := by
      conv_lhs => rw [← List.take_append_drop di.2 pool]
      congr 1
      rw [List.drop_eq_getElem_cons hilt, List.drop_eq_getElem_cons hilt1, hA', hB']
    refine ⟨⟨pool.take di.2, pool.drop (di.2 + 2), hdec, ?_⟩, ?_, ?_⟩
    · rw [← hrest, hA, hB]
      conv_lhs => rw [hdec]
      exact Matchmaking.filter_pair_removal (hdec ▸ hnodup)
    · rw [← hdab]
      exact h150
    · intro j hj
      rw [← hdab, ← Matchmaking.sorted_gap_eq hsorted j hj]
      exact (Matchmaking.findMinGap_le _ _ _ hmg).1 _
        ((Matchmaking.gapList_mem_iff pool _ j).2 ⟨hj, rfl⟩)
  · constructor
    · intro h
      unfold Matchmaking.try_match at h
      by_cases hlen : pool.length < 2
      · exact Or.inl hlen
      rw [if_neg hlen] at h
      rcases hmg : Matchmaking.findMinGap (Matchmaking.gapList pool) none with _ | di
      · exfalso
        have := (Matchmaking.findMinGap_none_iff _).1 hmg
        have hglen := Matchmaking.gapList_length pool
        rw [this] at hglen
        simp at hglen
        omega
      rw [hmg] at h
      dsimp only at h
      by_cases h150 : di.1 ≤ 150
      · rw [if_pos h150] at h
        exact absurd h (by simp)
      · refine Or.inr fun j hj => ?_
        have hle := (Matchmaking.findMinGap_le _ _ _ hmg).1 _
          ((Matchmaking.gapList_mem_iff pool _ j).2 ⟨hj, rfl⟩)
        rw [Matchmaking.sorted_gap_eq hsorted j hj] at hle
        dsimp only at hle
        have : 150 < di.1 := lt_of_not_le h150
        linarith
    · intro h
      unfold Matchmaking.try_match
      by_cases hlen : pool.length < 2
      · rw [if_pos hlen]
      rw [if_neg hlen]
      rcases h with h | h
      · exact absurd h hlen
      rcases hmg : Matchmaking.findMinGap (Matchmaking.gapList pool) none with _ | di
      · rfl
      have hmem : di ∈ Matchmaking.gapList pool := by
        rcases Matchmaking.findMinGap_mem _ _ _ hmg with hm | he
        · exact hm
        · exact absurd he (by simp)
      obtain ⟨hi, hd⟩ := (Matchmaking.gapList_mem_iff pool di.1 di.2).1 (by
        rw [← Prod.mk.eta (p := di)] at hmem
        exact hmem)
      have : 150 < di.1 := by
        rw [hd, Matchmaking.sorted_gap_eq hsorted di.2 hi]
        exact h di.2 hi
      dsimp only
      rw [if_neg (not_le.mpr this)]

/-! ### Claim C1 -/

/-- C1 (refuted — code bug): for difficulty above 2 the bot's target
`(rotation, x)` is a bare uniform draw — the difficulty conditional in
`_play_tetris_turn` has the same `random.randint(0, 3)` on both branches and
`_select_tetris_move` is never invoked for this game — so the target is
board-independent and need not maximize `lines_cleared * 10` minus the
stack-height penalty: at difficulty 5 with draws `(1, 3)` on an empty grid,
*every* legal lock position of the drawn target (the vertical `I` at column 5;
its lowest position `y = 16` scores `-4`) scores strictly below the legal
horizontal bottom-row placement (score `-1`).  Moreover the drive itself can
never be played out: every rotate/shift/lock submission goes through
`TetrisGame.process_move`, which raises `TypeError` on every call. -/
theorem C1_bot_target_ignores_board :
    (∀ difficulty rotDraw xDraw,
      Bot.play_tetris_target difficulty rotDraw xDraw = (rotDraw, xDraw)) ∧
    Bot.play_tetris_target 5 1 3 = (1, 3) ∧
    (∀ (s : Tetris.TGameState) (m : Tetris.TMove) (p : ℕ) (np : String),
      Tetris.process_move s m p np = .error .typeError) ∧
    (∀ y : ℤ, Bot.legalPlacement Fixtures.emptyTGrid "I" 1 3 y →
      Bot.placementScore Fixtures.emptyTGrid "I" 1 3 y <
        Bot.placementScore Fixtures.emptyTGrid "I" 0 0 18) ∧
    Bot.legalPlacement Fixtures.emptyTGrid "I" 1 3 16 ∧
    Bot.placementScore Fixtures.emptyTGrid "I" 1 3 16 = -4 ∧
    Bot.legalPlacement Fixtures.emptyTGrid "I" 0 0 18 ∧
    Bot.placementScore Fixtures.emptyTGrid "I" 0 0 18 = -1 := by
  refine ⟨fun difficulty rotDraw xDraw => by simp [Bot.play_tetris_target], rfl,
    fun s m p np => rfl, ?_, ⟨by decide, by decide⟩, by decide,
    ⟨by decide, by decide⟩, by decide⟩
  intro y hleg
  obtain ⟨-, hcan⟩ := hleg
  have h0 : (0 : ℤ) ≤ y ∧ y + 3 < 20 := by
    have ha := Tetris.can_place_piece_cell hcan 0 2 (by decide) (by decide) (by decide)
    have hb := Tetris.can_place_piece_cell hcan 3 2 (by decide) (by decide) (by decide)
    have hBH : (Tetris.BOARD_HEIGHT : ℤ) = 20 := by rfl
    rw [hBH] at ha hb
    omega
  have hy0 : (0 : ℤ) ≤ y := h0.1
  have hy16 : y ≤ 16 := by omega
  interval_cases y <;> decide

/-! ### Claim C2 -/

/-- C4 (refuted — code bug): the claim demands that every 7 consecutive pieces
form a permutation of the 7 tetromino types.  But `GameFactory.create_game_logic`
and the engine timer construct a fresh `TetrisBoard` for every call, so the
7-bag randomizer state is discarded after one pop: each generated piece is just
the last element of an independent fresh shuffle.  Taking every shuffle outcome
to be the identity permutation of the canonical bag — a legitimate value of
`random.shuffle` — the run yields the same type 7 times in a row, which is not
a permutation of the bag. -/
theorem C4_fresh_bag_repeats :
    (∀ n, List.Perm ((fun _ => Bag.canonicalBag : ℕ → List String) n)
      Bag.canonicalBag) ∧
    (List.range 7).map (Bag.generatedPiece (fun _ => Bag.canonicalBag)) =
      List.replicate 7 "L" ∧
    ¬ List.Perm
      ((List.range 7).map (Bag.generatedPiece (fun _ => Bag.canonicalBag)))
      Bag.canonicalBag := by
  refine ⟨fun n => List.Perm.refl _, by decide, fun hperm => ?_⟩
  have := hperm.nodup_iff.2 (by decide)
  exact absurd this (by decide)

/-- Witness for C6: a sorted two-entry pool with a 120-point gap is paired,
while a sorted two-entry pool with a 200-point gap is left unmatched. -/
theorem C6_pairing_pass_witness :
    Matchmaking.try_match
      [⟨"u1", 1500, 0⟩, ⟨"u2", 1620, 1⟩] ≠ none ∧
    Matchmaking.try_match
      [⟨"v1", 1500, 0⟩, ⟨"v2", 1700, 1⟩] = none := by
  constructor
  · intro hn
    have h := (C6_pairing_pass [⟨"u1", 1500, 0⟩, ⟨"u2", 1620, 1⟩]
      (by
        refine List.chain'_cons.2 ⟨Or.inl ?_, List.chain'_singleton _⟩
        show (1500 : ℚ) < 1620
        norm_num)
      (by simp)).2.1 hn
    rcases h with h | h
    · exact absurd h (by decide)
    · have h0 := h 0 (by decide)
      simp only [List.getD_cons_succ, List.getD_cons_zero] at h0
      have h1 : (150 : ℚ) < 1620 - 1500 := h0
      norm_num at h1
  · exact (C6_pairing_pass [⟨"v1", 1500, 0⟩, ⟨"v2", 1700, 1⟩]
      (by
        refine List.chain'_cons.2 ⟨Or.inl ?_, List.chain'_singleton _⟩
        show (1500 : ℚ) < 1700
        norm_num)
      (by simp)).2.2 (Or.inr (fun j hj => by
        have hj0 : j = 0 := by
          simp only [List.length_cons, List.length_nil] at hj
          omega
        subst hj0
        simp only [List.getD_cons_succ, List.getD_cons_zero]
        show (150 : ℚ) < 1700 - 1500
        norm_num))

/-- Witness for C7: on a fresh 300-second session, one tick leaves 299 seconds
on the on-turn clock and ten ticks leave 290. -/
theorem C7_tick_clock_discipline_witness :
    (Pentago.tick Fixtures.pState).time_remaining.getD 0 0 = 300 - 1 ∧
    (Pentago.tick^[10] Fixtures.pState).time_remaining.getD 0 0 = 300 - 10 := by
  constructor
  · have h := (C7_tick_clock_discipline).1 Fixtures.pState (Or.inl rfl)
      (by decide) (by decide) (by decide)
    rw [show (0:ℕ) = Fixtures.pState.current_player from rfl, h.1]
    norm_num [Fixtures.pState]
  · have h := (C7_tick_clock_discipline).2.2 Fixtures.pState rfl (by decide) rfl
      (show (10:ℚ) < 300 by norm_num)
    rw [show (0:ℕ) = Fixtures.pState.current_player from rfl, h.1]
    norm_num [Fixtures.pState]
end GamePlatform
